import Mathlib

/-! Unity WebGL runtime fixes (`src/unity-webgl-fixes.js`).

A shallow embedding of the watchdogs of `unity-webgl-fixes.js`: the frame-timing guard
around `window.requestAnimationFrame`, the GameManager initialiser with its fallback
object, the SmartFoxServer connection recovery and the `console.error` interceptor.

The page is a record `Page`; every function of the script is a function on pages.
Timers (`setInterval`, `setTimeout`) are entries of `Page.timers` and fire as events;
the external collaborators (`window.UnityInstance`, `window.SFS2X`, `performance.now()`,
`window.location.search`) are read from an `Env` that is supplied with each event, so
that every answer they can give is covered. A call that throws is an `Except.error`
carrying the text of the thrown value; a callback returns a `Completion`, which says
whether an exception escaped it. What the script does to the outside (calls of the
original functions, of the collaborators, of a frame callback, DOM changes) is appended
to `Page.trace`. `console.log` and `console.warn` only print and are not modelled.
-/

namespace UnityWebGLFixes

/-! ## Strings -/

/-- The method `Array.prototype.join(sep)` on an array of strings. -/
def join (sep : String) : List String → String
  | [] => ""
  | [a] => a
  | a :: b :: rest => a ++ sep ++ join sep (b :: rest)

/-- Whether `pat` occurs in `text` as a contiguous block. -/
def occursIn (pat : List Char) : List Char → Bool
  | [] => pat.isEmpty
  | c :: cs => pat.isPrefixOf (c :: cs) || occursIn pat cs

/-- The method `String.prototype.includes`. -/
def includes (s pat : String) : Bool :=
  occursIn pat.data s.data

/-! ## Numbers

A JavaScript number is a binary64 value. A finite one is kept as `± mantissa × 2 ^ exponent`
in lowest terms: the mantissa is odd, or it is 0 with exponent 0; `+0` and `-0` differ in
the sign only. A decimal text is turned into the nearest binary64 value, ties to the even
significand, as `parseFloat` does. -/

/-- A JavaScript number: `NaN`, an infinity, or a finite binary64 value. -/
inductive JsNumber
  | nan
  | infinity (negative : Bool)
  | finite (negative : Bool) (mantissa : Nat) (exponent : Int)
  deriving DecidableEq, Repr

namespace JsNumber

/-- The number `+0`. -/
def zero : JsNumber := .finite false 0 0

/-- The rational value of a finite number. -/
def value : JsNumber → Option ℚ
  | .nan => none
  | .infinity _ => none
  | .finite negative mantissa exponent =>
    some ((if negative then -1 else 1) * (mantissa : ℚ) * (2 : ℚ) ^ exponent)

/-- The conversion `ToBoolean` on numbers: `NaN`, `+0` and `-0` are falsy. -/
def truthy : JsNumber → Bool
  | .nan => false
  | .infinity _ => true
  | .finite _ mantissa _ => mantissa != 0

/-- The expression `x || d` on numbers. -/
def orElse (x d : JsNumber) : JsNumber :=
  if x.truthy then x else d

/-- Whether the number is `NaN`. -/
def isNaN : JsNumber → Bool
  | .nan => true
  | _ => false

end JsNumber

/-- How many whole 64-bit words lie above the lowest word of `n`. -/
def wordsAbove : Nat → Nat → Nat
  | 0, _ => 0
  | fuel + 1, n => if n < 2 ^ 64 then 0 else wordsAbove fuel (n / 2 ^ 64) + 1

/-- The bit length of a number below `2 ^ fuel`. -/
def bitsBelow : Nat → Nat → Nat
  | 0, _ => 0
  | fuel + 1, n => if n = 0 then 0 else bitsBelow fuel (n / 2) + 1

/-- The bit length of `n`: the least `k` with `n < 2 ^ k`. -/
def bitLength (n : Nat) : Nat :=
  64 * wordsAbove n n + bitsBelow 64 (n / 2 ^ (64 * wordsAbove n n))

/-- The integer `e` with `2 ^ e ≤ n / d < 2 ^ (e + 1)`, for positive `n` and `d`. -/
def floorLog2 (n d : Nat) : Int :=
  if (if bitLength d ≤ bitLength n then d * 2 ^ (bitLength n - bitLength d) ≤ n
      else d ≤ n * 2 ^ (bitLength d - bitLength n))
  then (bitLength n : Int) - (bitLength d : Int)
  else (bitLength n : Int) - (bitLength d : Int) - 1

/-- The value `± m × 2 ^ q` as a number: in lowest terms, and an infinity when it is
`2 ^ 1024` or more. -/
def packBinary64 (negative : Bool) (m : Nat) (q : Int) : JsNumber :=
  if m = 0 then .finite negative 0 0
  else if 1024 < (bitLength m : Int) + q then .infinity negative
  else
    .finite negative (m / Nat.gcd m (2 ^ 64))
      (q + ((bitLength (Nat.gcd m (2 ^ 64)) : Int) - 1))

/-- The binary64 value nearest to `± n / d`, ties to the even significand: 53 bits of
significand, the unit in the last place never below `2 ^ -1074`. -/
def roundBinary64 (negative : Bool) (n d : Nat) : JsNumber :=
  if n = 0 then .finite negative 0 0
  else
    let q : Int := max (floorLog2 n d - 52) (-1074)
    let num := if 0 ≤ q then n else n * 2 ^ (-q).toNat
    let den := if 0 ≤ q then d * 2 ^ q.toNat else d
    let m := num / den
    let r := num % den
    packBinary64 negative
      (if 2 * r < den then m else if den < 2 * r then m + 1 else if m % 2 = 0 then m else m + 1)
      q

/-- The number for the decimal `± mantissa × 10 ^ exponent`. -/
def decimalToNumber (negative : Bool) (mantissa : Nat) (exponent : Int) : JsNumber :=
  if 0 ≤ exponent then roundBinary64 negative (mantissa * 10 ^ exponent.toNat) 1
  else roundBinary64 negative mantissa (10 ^ (-exponent).toNat)

/-- ECMAScript `WhiteSpace` and `LineTerminator` code points, stripped by `parseFloat`. -/
def isStrWhiteSpace (c : Char) : Bool :=
  let n := c.toNat
  n == 0x09 || n == 0x0A || n == 0x0B || n == 0x0C || n == 0x0D || n == 0x20 ||
  n == 0xA0 || n == 0x1680 || (0x2000 ≤ n && n ≤ 0x200A) || n == 0x2028 ||
  n == 0x2029 || n == 0x202F || n == 0x205F || n == 0x3000 || n == 0xFEFF

/-- A decimal digit `0`..`9`. -/
def isDecimalDigit (c : Char) : Bool :=
  48 ≤ c.toNat && c.toNat ≤ 57

/-- The leading run of decimal digits and what follows it. -/
def takeDigits : List Char → List Char × List Char
  | [] => ([], [])
  | c :: cs =>
    if isDecimalDigit c then ((takeDigits cs).1.cons c, (takeDigits cs).2)
    else ([], c :: cs)

/-- The value of a run of decimal digits. -/
def digitsValue (ds : List Char) : Nat :=
  ds.foldl (fun acc c => 10 * acc + (c.toNat - 48)) 0

/-- The `ExponentPart` at the head of the text, `0` when there is none. -/
def exponentPart : List Char → Int
  | [] => 0
  | c :: cs =>
    if c == 'e' || c == 'E' then
      match cs with
      | '-' :: r =>
        if (takeDigits r).1.isEmpty then 0 else - (digitsValue (takeDigits r).1 : Int)
      | '+' :: r =>
        if (takeDigits r).1.isEmpty then 0 else (digitsValue (takeDigits r).1 : Int)
      | r => if (takeDigits r).1.isEmpty then 0 else (digitsValue (takeDigits r).1 : Int)
    else 0

/-- The longest prefix that is a `StrUnsignedDecimalLiteral`, as a number. -/
def parseUnsigned (negative : Bool) (s : List Char) : JsNumber :=
  if "Infinity".data.isPrefixOf s then .infinity negative
  else
    let intPart := takeDigits s
    let fracPart : List Char × List Char :=
      match intPart.2 with
      | '.' :: r => takeDigits r
      | r => ([], r)
    if intPart.1.isEmpty && fracPart.1.isEmpty then .nan
    else
      decimalToNumber negative (digitsValue (intPart.1 ++ fracPart.1))
        (exponentPart fracPart.2 - (fracPart.1.length : Int))

/-- The global `parseFloat` applied to a string. -/
def parseFloat (input : String) : JsNumber :=
  match input.data.dropWhile isStrWhiteSpace with
  | '-' :: r => parseUnsigned true r
  | '+' :: r => parseUnsigned false r
  | s => parseUnsigned false s

/-! ## Query strings

`new URLSearchParams(search)` follows the `application/x-www-form-urlencoded` parser of
the URL standard: strip one leading `?`, split on `&`, split each piece at its first `=`,
turn `+` into a space, percent-decode and read the bytes as UTF-8. -/

/-- The UTF-8 bytes of a code point. -/
def utf8Bytes (c : Char) : List Nat :=
  let n := c.toNat
  if n < 0x80 then [n]
  else if n < 0x800 then [0xC0 + n / 64, 0x80 + n % 64]
  else if n < 0x10000 then [0xE0 + n / 4096, 0x80 + n / 64 % 64, 0x80 + n % 64]
  else [0xF0 + n / 262144, 0x80 + n / 4096 % 64, 0x80 + n / 64 % 64, 0x80 + n % 64]

/-- The value of a hexadecimal digit. -/
def hexValue (c : Char) : Option Nat :=
  let n := c.toNat
  if 48 ≤ n && n ≤ 57 then some (n - 48)
  else if 65 ≤ n && n ≤ 70 then some (n - 55)
  else if 97 ≤ n && n ≤ 102 then some (n - 87)
  else none

/-- Percent-decoding of a text to bytes, with `+` read as a space. -/
def percentDecode : List Char → List Nat
  | [] => []
  | '%' :: h :: l :: rest =>
    match hexValue h, hexValue l with
    | some a, some b => (16 * a + b) :: percentDecode rest
    | _, _ => 0x25 :: percentDecode (h :: l :: rest)
  | c :: rest =>
    if c == '+' then 0x20 :: percentDecode rest else utf8Bytes c ++ percentDecode rest

/-- The state of the UTF-8 decoder of the Encoding standard: how many continuation bytes
are still needed, the code point collected so far, and the bounds within which the next
continuation byte must lie. -/
structure Utf8State where
  needed : Nat
  codePoint : Nat
  lower : Nat
  upper : Nat
  deriving DecidableEq

/-- The decoder's state between code points. -/
def Utf8State.idle : Utf8State :=
  { needed := 0, codePoint := 0, lower := 0x80, upper := 0xBF }

/-- The decoder's handling of a byte when no continuation byte is needed: the code points
emitted and the next state. A byte that cannot start a code point gives U+FFFD. -/
def utf8Lead (b : Nat) : List Char × Utf8State :=
  if b ≤ 0x7F then ([Char.ofNat b], Utf8State.idle)
  else if 0xC2 ≤ b ∧ b ≤ 0xDF then
    ([], { needed := 1, codePoint := b % 32, lower := 0x80, upper := 0xBF })
  else if 0xE0 ≤ b ∧ b ≤ 0xEF then
    ([], { needed := 2, codePoint := b % 16
           lower := if b = 0xE0 then 0xA0 else 0x80
           upper := if b = 0xED then 0x9F else 0xBF })
  else if 0xF0 ≤ b ∧ b ≤ 0xF4 then
    ([], { needed := 3, codePoint := b % 8
           lower := if b = 0xF0 then 0x90 else 0x80
           upper := if b = 0xF4 then 0x8F else 0xBF })
  else ([Char.ofNat 0xFFFD], Utf8State.idle)

/-- One byte through the decoder. A byte outside the bounds while continuation bytes are
needed gives U+FFFD for the broken sequence and is then handled afresh. -/
def utf8Step (s : Utf8State) (b : Nat) : List Char × Utf8State :=
  if s.needed = 0 then utf8Lead b
  else if s.lower ≤ b ∧ b ≤ s.upper then
    if s.needed = 1 then ([Char.ofNat (s.codePoint * 64 + b % 64)], Utf8State.idle)
    else
      ([], { needed := s.needed - 1, codePoint := s.codePoint * 64 + b % 64
             lower := 0x80, upper := 0xBF })
  else (Char.ofNat 0xFFFD :: (utf8Lead b).1, (utf8Lead b).2)

/-- The decoder run over the bytes from a state; a sequence cut off by the end of the
bytes gives one U+FFFD. -/
def utf8DecodeFrom (s : Utf8State) : List Nat → List Char
  | [] => if s.needed = 0 then [] else [Char.ofNat 0xFFFD]
  | b :: rest => (utf8Step s b).1 ++ utf8DecodeFrom (utf8Step s b).2 rest

/-- The algorithm "UTF-8 decode without BOM" of the Encoding standard. -/
def utf8Decode (bytes : List Nat) : List Char :=
  utf8DecodeFrom Utf8State.idle bytes

/-- The decoded text of one name or value of a query string. -/
def decodeComponent (s : List Char) : String :=
  String.mk (utf8Decode (percentDecode s))

/-- Split a text on a separator character. -/
def splitOn (sep : Char) : List Char → List (List Char)
  | [] => [[]]
  | c :: cs =>
    if c == sep then [] :: splitOn sep cs
    else
      match splitOn sep cs with
      | [] => [[c]]
      | w :: ws => (c :: w) :: ws

/-- One `name=value` piece, split at its first `=`. -/
def splitPair : List Char → List Char × List Char
  | [] => ([], [])
  | c :: cs =>
    if c == '=' then ([], cs) else ((splitPair cs).1.cons c, (splitPair cs).2)

/-- The list of pairs held by `new URLSearchParams(search)`. -/
def URLSearchParams (search : String) : List (String × String) :=
  let body := match search.data with
    | '?' :: r => r
    | r => r
  ((splitOn '&' body).filter (fun piece => !piece.isEmpty)).map
    (fun piece => (decodeComponent (splitPair piece).1, decodeComponent (splitPair piece).2))

/-- The method `URLSearchParams.prototype.get`: the first value under the name, or `null`. -/
def URLSearchParams.get (params : List (String × String)) (name : String) : Option String :=
  (params.find? (fun kv => kv.1 == name)).map (fun kv => kv.2)

/-! ## The page -/

/-- Milliseconds, as returned by `performance.now()`. -/
abbrev Time := ℚ

/-- The `performanceMonitor` member of the shared record. -/
structure PerformanceMonitor where
  frameCount : Nat
  lastFrameTime : Nat
  recursionDetected : Bool
  deriving DecidableEq

/-- The shared record `UnityFixes` (lines 12-24). -/
structure UnityFixes where
  isInitialized : Bool
  gameManagerFound : Bool
  playerLoopFixed : Bool
  connectionRetries : Nat
  maxRetries : Nat
  retryDelay : Nat
  performanceMonitor : PerformanceMonitor
  deriving DecidableEq

/-- The record as created at module load. -/
def UnityFixes.initial : UnityFixes :=
  { isInitialized := false
    gameManagerFound := false
    playerLoopFixed := false
    connectionRetries := 0
    maxRetries := 5
    retryDelay := 2000
    performanceMonitor := { frameCount := 0, lastFrameTime := 0, recursionDetected := false } }

/-- A frame callback: the script's own `monitorPerformance`, or a function of the page. -/
inductive Callback
  | monitorPerformance
  | client (id : Nat)
  deriving DecidableEq

/-- The value of `window.requestAnimationFrame`: the browser primitive, or the wrapper of
`fixPlayerLoopRecursion` with its closure variables around the function it captured. -/
inductive Raf
  | native
  | guard (frameCount : Nat) (lastFrameTime : Time) (originalRAF : Raf)
  deriving DecidableEq

/-- The value of `console.error`: the browser function, or the wrapper of
`setupErrorRecovery` around the function it captured. -/
inductive ErrorLogger
  | native
  | recovery (originalError : ErrorLogger)
  deriving DecidableEq

/-- What a timer runs when it fires. A timeout that clears an interval holds its handle. -/
inductive TimerTask
  | checkGameManager
  | gameManagerTimeout (checkGameManager : Nat)
  | connectionMonitor
  | connectionCleanup (connectionMonitor : Nat)
  | frameDelay (callback : Callback) (currentTime : Time) (level : Nat)
  deriving DecidableEq

/-- A live timer: `setInterval` arms a repeating one, `setTimeout` a one-shot one. -/
structure Timer where
  handle : Nat
  delay : Nat
  repeating : Bool
  task : TimerTask
  deriving DecidableEq

/-- The functions of the script whose calls are traced. -/
inductive Fn
  | fixPlayerLoopRecursion
  | fixGameManagerInitialization
  | createGameManagerFallback
  | fixSmartFoxConnection
  | showConnectionError
  deriving DecidableEq

/-- An observable effect of the script. -/
inductive Effect
  | enter (f : Fn)
  | originalError (args : List String)
  | originalRAF (callback : Callback)
  | callback (callback : Callback) (timestamp : Time)
  | sendMessage (target method : String)
  | isConnected
  | connect (host : String) (port : Nat)
  | dispatchEvent (type eventName : String)
  | appendChild (className : String)
  | uncaught (thrown : String)
  deriving DecidableEq

/-- The `playerData` member of the fallback object. -/
structure PlayerData where
  username : String
  balance : JsNumber
  deriving DecidableEq

/-- The fallback object stored in `window.GameManager`. -/
structure GameManager where
  isInitialized : Bool
  gameState : String
  playerData : PlayerData
  deriving DecidableEq

/-- The page: the shared record, the globals the script replaces, the live timers and the
trace of effects, oldest first. -/
structure Page where
  fixes : UnityFixes
  requestAnimationFrame : Raf
  consoleError : ErrorLogger
  gameManager : Option GameManager
  timers : List Timer
  nextHandle : Nat
  trace : List Effect
  deriving DecidableEq

/-- The page when the script is loaded. -/
def Page.initial : Page :=
  { fixes := UnityFixes.initial
    requestAnimationFrame := .native
    consoleError := .native
    gameManager := none
    timers := []
    nextHandle := 1
    trace := [] }

/-- The runtime handle `window.UnityInstance`: how `SendMessage` ends when called. -/
structure UnityInstance where
  sendMessage : Except String Unit

/-- The session client `window.SFS2X`: how its calls end during one tick. The accessor
`isConnected()` is evaluated up to twice in a tick (lines 139 and 148). -/
structure SFS2X where
  isConnected : Except String Bool
  isConnectedAgain : Except String Bool
  connect : Except String Unit

/-- What the script reads from its surroundings while one event is handled. -/
structure Env where
  now : Time
  search : String
  unityInstance : Option UnityInstance
  sfs2x : Option SFS2X

/-- A callback's result: the page it leaves and the exception that escaped it, if any. -/
structure Completion where
  page : Page
  thrown : Option String

namespace Page

/-- Append an effect to the trace. -/
def record (p : Page) (e : Effect) : Page :=
  { p with trace := p.trace ++ [e] }

/-- The call `setInterval(task, delay)`; the handle returned is the old `nextHandle`. -/
def setInterval (p : Page) (task : TimerTask) (delay : Nat) : Page :=
  { p with
    timers := p.timers ++
      [{ handle := p.nextHandle, delay := delay, repeating := true, task := task }]
    nextHandle := p.nextHandle + 1 }

/-- The call `setTimeout(task, delay)`; the handle returned is the old `nextHandle`. -/
def setTimeout (p : Page) (task : TimerTask) (delay : Nat) : Page :=
  { p with
    timers := p.timers ++
      [{ handle := p.nextHandle, delay := delay, repeating := false, task := task }]
    nextHandle := p.nextHandle + 1 }

/-- The call `clearInterval(handle)`. -/
def clearInterval (p : Page) (handle : Nat) : Page :=
  { p with timers := p.timers.filter (fun t => t.handle != handle) }

end Page

/-! ## Fix 1: the frame-timing guard (lines 27-66) -/

/-- How many wrappers of `fixPlayerLoopRecursion` sit around the browser primitive. -/
def Raf.depth : Raf → Nat
  | .native => 0
  | .guard _ _ originalRAF => originalRAF.depth + 1

/-- A call of `window.requestAnimationFrame` at clock reading `currentTime` (lines 37-62).
Returns the function with its updated closure variables and, when a wrapper took the
deferring branch, the level (depth of its captured function) of that wrapper; `none`
means the call reached the browser primitive. -/
def Raf.request (currentTime : Time) : Raf → Raf × Option Nat
  | .native => (.native, none)
  | .guard frameCount lastFrameTime originalRAF =>
    if currentTime - lastFrameTime < 1 then
      if frameCount + 1 > 100 then
        (.guard (frameCount + 1) lastFrameTime originalRAF, some originalRAF.depth)
      else
        (.guard (frameCount + 1) currentTime (originalRAF.request currentTime).1,
          (originalRAF.request currentTime).2)
    else
      (.guard 0 currentTime (originalRAF.request currentTime).1,
        (originalRAF.request currentTime).2)

/-- The assignments of the deferred callback (lines 50-51) in the wrapper at `level`. -/
def Raf.resume (level : Nat) (now : Time) : Raf → Raf
  | .native => .native
  | .guard frameCount lastFrameTime originalRAF =>
    if originalRAF.depth = level then .guard 0 now originalRAF
    else .guard frameCount lastFrameTime (originalRAF.resume level now)

/-- Someone calls `window.requestAnimationFrame(callback)`. -/
def requestAnimationFrame (callback : Callback) (env : Env) (p : Page) : Page :=
  match (p.requestAnimationFrame.request env.now).2 with
  | none =>
    { p with requestAnimationFrame := (p.requestAnimationFrame.request env.now).1 }.record
      (.originalRAF callback)
  | some level =>
    { p with
      requestAnimationFrame := (p.requestAnimationFrame.request env.now).1
      fixes := { p.fixes with
        performanceMonitor := { p.fixes.performanceMonitor with recursionDetected := true } }
      }.setTimeout (.frameDelay callback env.now level) 16

/-- The deferred callback of lines 49-53, run when its 16 ms timer fires. -/
def frameDelay (callback : Callback) (currentTime : Time) (level : Nat) (env : Env)
    (p : Page) : Completion :=
  { page := { p with requestAnimationFrame := p.requestAnimationFrame.resume level env.now }.record
      (.callback callback (currentTime + 16))
    thrown := none }

/-- The function `fixPlayerLoopRecursion` (lines 27-66). -/
def fixPlayerLoopRecursion (env : Env) (p : Page) : Page :=
  if p.fixes.playerLoopFixed then p.record (.enter .fixPlayerLoopRecursion)
  else
    { p with
      requestAnimationFrame := .guard 0 env.now p.requestAnimationFrame
      fixes := { p.fixes with playerLoopFixed := true } }.record
      (.enter .fixPlayerLoopRecursion)

/-! ## Fix 3: the fallback object (lines 102-128) -/

/-- The expression `x || d` for a string or `null` on the left. -/
def stringOr (x : Option String) (d : String) : String :=
  match x with
  | none => d
  | some s => if s = "" then d else s

/-- The conversion `ToString` of a string or `null`, as `parseFloat` applies it. -/
def toStringOrNull : Option String → String
  | none => "null"
  | some s => s

/-- The `playerData` literal of lines 109-112. -/
def playerData (search : String) : PlayerData :=
  { username := stringOr (URLSearchParams.get (URLSearchParams search) "user_name") "Player"
    balance :=
      (parseFloat (toStringOrNull (URLSearchParams.get (URLSearchParams search) "balance"))).orElse
        JsNumber.zero }

/-- The method `triggerEvent` of the fallback object (lines 118-123). -/
def triggerEvent (eventName : String) (p : Page) : Page :=
  p.record (.dispatchEvent "gameManagerEvent" eventName)

/-- The method `Initialize` of the fallback object (lines 113-117), called on
`window.GameManager`. -/
def Initialize (p : Page) : Page :=
  triggerEvent "gameReady"
    { p with gameManager := p.gameManager.map (fun g => { g with gameState := "ready" }) }

/-- The function `createGameManagerFallback` (lines 102-128). -/
def createGameManagerFallback (env : Env) (p : Page) : Page :=
  Initialize
    { p.record (.enter .createGameManagerFallback) with
      gameManager := some
        { isInitialized := true, gameState := "loading", playerData := playerData env.search }
      fixes := { p.fixes with gameManagerFound := true } }

/-! ## Fix 2, 4, 9: arming the pollers -/

/-- The function `fixGameManagerInitialization` (lines 69-99): arms the poll interval and
the timeout that closes over its handle. -/
def fixGameManagerInitialization (p : Page) : Page :=
  if p.fixes.gameManagerFound then p.record (.enter .fixGameManagerInitialization)
  else
    (((p.record (.enter .fixGameManagerInitialization)).setInterval .checkGameManager
      1000).setTimeout (.gameManagerTimeout p.nextHandle) 30000)

/-- The function `fixSmartFoxConnection` (lines 131-163): arms the poll interval and the
cleanup timeout that closes over its handle. -/
def fixSmartFoxConnection (p : Page) : Page :=
  (((p.record (.enter .fixSmartFoxConnection)).setInterval .connectionMonitor
    5000).setTimeout (.connectionCleanup p.nextHandle) (p.fixes.maxRetries * p.fixes.retryDelay))

/-- The function `showConnectionError` (lines 285-310). -/
def showConnectionError (p : Page) : Page :=
  (p.record (.enter .showConnectionError)).record (.appendChild "connection-error")

/-! ## Fix 7: the `console.error` interceptor (lines 212-241) -/

/-- A call of the function held in `console.error` with the given arguments. -/
def ErrorLogger.call (args : List String) (env : Env) : ErrorLogger → Page → Page
  | .native, p => p.record (.originalError args)
  | .recovery originalError, p =>
    if includes (join " " args) "PlayerLoop internal function has been called recursively" then
      fixPlayerLoopRecursion env p
    else if includes (join " " args) "object GameManager not found" then
      fixGameManagerInitialization p
    else if includes (join " " args) "SmartFoxServer lost" then
      fixSmartFoxConnection p
    else
      originalError.call args env p

/-- Someone calls `console.error(...args)`. -/
def consoleError (args : List String) (env : Env) (p : Page) : Page :=
  p.consoleError.call args env p

/-- The function `setupErrorRecovery` (lines 212-241). -/
def setupErrorRecovery (p : Page) : Page :=
  { p with consoleError := .recovery p.consoleError }

/-! ## The timer callbacks -/

/-- The interval callback of `fixGameManagerInitialization` (lines 75-89); `handle` is the
interval's own handle `checkGameManager`. -/
def checkGameManager (handle : Nat) (env : Env) (p : Page) : Completion :=
  match env.unityInstance with
  | none => { page := p, thrown := none }
  | some unity =>
    match unity.sendMessage with
    | .ok _ =>
      { page :=
          { p.record (.sendMessage "GameManager" "Initialize") with
            fixes := { p.fixes with gameManagerFound := true } }.clearInterval handle
        thrown := none }
    | .error _ =>
      { page :=
          (createGameManagerFallback env
            (p.record (.sendMessage "GameManager" "Initialize"))).clearInterval handle
        thrown := none }

/-- The timeout callback of `fixGameManagerInitialization` (lines 92-98). -/
def gameManagerTimeout (checkGameManager : Nat) (env : Env) (p : Page) : Completion :=
  if p.fixes.gameManagerFound then { page := p, thrown := none }
  else
    { page :=
        createGameManagerFallback env
          (consoleError ["❌ GameManager initialization timeout"] env
            (p.clearInterval checkGameManager))
      thrown := none }

/-- The interval callback of `fixSmartFoxConnection` (lines 135-153). -/
def connectionMonitor (env : Env) (p : Page) : Completion :=
  match env.sfs2x with
  | none => { page := p, thrown := none }
  | some sfs =>
    match sfs.isConnected with
    | .error e => { page := p.record .isConnected, thrown := some e }
    | .ok connected =>
      if connected = false ∧ p.fixes.connectionRetries < p.fixes.maxRetries then
        match sfs.connect with
        | .ok _ =>
          { page :=
              { (p.record .isConnected).record (.connect "gameserver.dlgame.online" 8443) with
                fixes := { p.fixes with connectionRetries := p.fixes.connectionRetries + 1 } }
            thrown := none }
        | .error e =>
          { page :=
              consoleError ["❌ SmartFoxServer reconnection failed:", e] env
                ((p.record .isConnected).record (.connect "gameserver.dlgame.online" 8443))
            thrown := none }
      else
        match sfs.isConnectedAgain with
        | .error e =>
          { page := (p.record .isConnected).record .isConnected, thrown := some e }
        | .ok again =>
          if again then
            { page :=
                { (p.record .isConnected).record .isConnected with
                  fixes := { p.fixes with connectionRetries := 0 } }
              thrown := none }
          else { page := (p.record .isConnected).record .isConnected, thrown := none }

/-- The cleanup callback of `fixSmartFoxConnection` (lines 156-162). -/
def connectionCleanup (connectionMonitor : Nat) (env : Env) (p : Page) : Completion :=
  if p.fixes.connectionRetries ≥ p.fixes.maxRetries then
    { page :=
        showConnectionError
          (consoleError ["❌ SmartFoxServer connection failed after max retries"] env
            (p.clearInterval connectionMonitor))
      thrown := none }
  else { page := p.clearInterval connectionMonitor, thrown := none }

/-! ## Fix 5, 10: start-up -/

/-- The function `setupPerformanceMonitoring` (lines 166-192) as far as it touches the
page: it requests a frame for `monitorPerformance`. -/
def setupPerformanceMonitoring (env : Env) (p : Page) : Page :=
  requestAnimationFrame .monitorPerformance env p

/-- The function `initializeFixes` (lines 313-328). `setupLoadingStateManagement` only
animates the loading screen and is left out. -/
def initializeFixes (env : Env) (p : Page) : Page :=
  if p.fixes.isInitialized then p
  else
    { setupPerformanceMonitoring env
        (fixSmartFoxConnection
          (fixGameManagerInitialization (setupErrorRecovery (fixPlayerLoopRecursion env p)))) with
      fixes :=
        { (setupPerformanceMonitoring env
            (fixSmartFoxConnection
              (fixGameManagerInitialization
                (setupErrorRecovery (fixPlayerLoopRecursion env p))))).fixes with
          isInitialized := true } }

/-! ## Events -/

/-- What can happen to the page. -/
inductive Event
  | ready
  | requestFrame (callback : Callback)
  | logError (args : List String)
  | timer (handle : Nat)
  deriving DecidableEq

/-- Run the task of a timer. -/
def runTask (handle : Nat) (env : Env) (p : Page) : TimerTask → Completion
  | .checkGameManager => checkGameManager handle env p
  | .gameManagerTimeout interval => gameManagerTimeout interval env p
  | .connectionMonitor => connectionMonitor env p
  | .connectionCleanup interval => connectionCleanup interval env p
  | .frameDelay callback currentTime level => frameDelay callback currentTime level env p

/-- Turn a completion into the page it leaves, tracing an escaped exception. -/
def Completion.settle (c : Completion) : Page :=
  match c.thrown with
  | none => c.page
  | some e => c.page.record (.uncaught e)

/-- A live timer fires: a one-shot timer is spent, then its task runs. -/
def fire (t : Timer) (env : Env) (p : Page) : Page :=
  (runTask t.handle env (if t.repeating then p else p.clearInterval t.handle) t.task).settle

/-- One event. `ready` is `DOMContentLoaded` or `unity-ready`; a `timer` event for a handle
that is not live does not happen and leaves the page as it is. -/
def step (ev : Event) (env : Env) (p : Page) : Page :=
  match ev with
  | .ready => initializeFixes env p
  | .requestFrame callback => requestAnimationFrame callback env p
  | .logError args => consoleError args env p
  | .timer handle =>
    match p.timers.find? (fun t => t.handle == handle) with
    | none => p
    | some t => fire t env p

/-- Run a list of events, each with its environment. -/
def run (p : Page) : List (Event × Env) → Page
  | [] => p
  | (ev, env) :: rest => run (step ev env p) rest

/-- The pages the script can reach from its load. -/
inductive Reachable : Page → Prop
  | initial : Reachable Page.initial
  | step {p : Page} (ev : Event) (env : Env) : Reachable p → Reachable (step ev env p)

/-- An environment in which no collaborator is present. -/
def Env.quiet : Env :=
  { now := 0, search := "", unityInstance := none, sfs2x := none }

/-- The message matches none of the three patterns of the interceptor. -/
def matchesNone (message : String) : Prop :=
  includes message "PlayerLoop internal function has been called recursively" = false ∧
  includes message "object GameManager not found" = false ∧
  includes message "SmartFoxServer lost" = false

instance (message : String) : Decidable (matchesNone message) := by
  unfold matchesNone; infer_instance

/-! ## Sequences of requests -/

/-- A sequence of calls of `window.requestAnimationFrame`, each with its clock reading. -/
def requestAll (p : Page) : List (Callback × Env) → Page
  | [] => p
  | (callback, env) :: rest => requestAll (requestAnimationFrame callback env p) rest

/-- Every request of the sequence arrives less than 1 ms after the one before it, the
first one less than 1 ms after `last`. -/
def Rapid (last : Time) : List (Callback × Env) → Prop
  | [] => True
  | (_, env) :: rest => env.now - last < 1 ∧ Rapid env.now rest

/-- The clock reading of the last request of a sequence, `last` for the empty one. -/
def lastTime (last : Time) : List (Callback × Env) → Time
  | [] => last
  | (_, env) :: rest => lastTime env.now rest

/-! ## Invariants of the page -/

/-- What holds of every page the script can reach: the frame primitive is wrapped once
exactly when `playerLoopFixed` is set, the retry counter is within its bound of 5, and
every live timer has a handle below the next one to be handed out. -/
structure Inv (p : Page) : Prop where
  wrapped : p.requestAnimationFrame.depth = if p.fixes.playerLoopFixed then 1 else 0
  retries : p.fixes.connectionRetries ≤ p.fixes.maxRetries
  budget : p.fixes.maxRetries = 5
  fresh : ∀ t ∈ p.timers, t.handle < p.nextHandle

/-- The flag `playerLoopFixed` is not lowered from `p` to `q`. -/
def KeepsFixed (p q : Page) : Prop :=
  p.fixes.playerLoopFixed = true → q.fixes.playerLoopFixed = true

/-! ## Timers in time

The order in which timers that were armed in the same call fire, from their delays. A
repeating timer of delay `d` is due at `d`, `2 d`, `3 d`, ... ms after arming, a one-shot
timer once at `d`. The browser does not fix the order of two timers that are due at the
same instant; `laterFirst` chooses it. -/

/-- One firing: the instant it is due and the handle of the timer. -/
structure Firing where
  due : Nat
  handle : Nat
  deriving DecidableEq

/-- The firings of one timer up to `horizon` ms after it was armed. -/
def Timer.firings (t : Timer) (horizon : Nat) : List Firing :=
  if t.repeating then
    (List.range (horizon / t.delay)).map
      (fun k => { due := (k + 1) * t.delay, handle := t.handle })
  else if t.delay ≤ horizon then [{ due := t.delay, handle := t.handle }]
  else []

/-- Whether firing `a` comes before firing `b`. At equal due times the timer that was armed
first (lower handle) goes first, unless `laterFirst`. -/
def Firing.before (laterFirst : Bool) (a b : Firing) : Bool :=
  a.due < b.due ||
    (a.due == b.due && (if laterFirst then b.handle ≤ a.handle else a.handle ≤ b.handle))

/-- Insert a firing into a list that is in firing order. -/
def insertFiring (laterFirst : Bool) (a : Firing) : List Firing → List Firing
  | [] => [a]
  | b :: rest =>
    if Firing.before laterFirst a b then a :: b :: rest
    else b :: insertFiring laterFirst a rest

/-- The firings of the timers up to `horizon` ms, in the order they happen. -/
def firingOrder (timers : List Timer) (horizon : Nat) (laterFirst : Bool) : List Firing :=
  (timers.flatMap (fun t => t.firings horizon)).foldr (insertFiring laterFirst) []

/-- The timers that were armed between page `p` and the later page `q`. -/
def armedSince (p q : Page) : List Timer :=
  q.timers.filter (fun t => p.nextHandle ≤ t.handle)

/-- Let the timers armed since `p` fire in time order for `horizon` ms on page `q`, every
callback seeing the environment `env`. -/
def elapse (p q : Page) (horizon : Nat) (laterFirst : Bool) (env : Env) : Page :=
  run q ((firingOrder (armedSince p q) horizon laterFirst).map
    (fun f => (Event.timer f.handle, env)))

/-- An environment in which the session client is present, reports that it is not
connected, and accepts `connect` without throwing. -/
def Env.disconnected : Env :=
  { now := 0, search := "", unityInstance := none
    sfs2x := some { isConnected := .ok false, isConnectedAgain := .ok false, connect := .ok () } }

/-- The page during start-up (lines 319-321), just before `fixSmartFoxConnection` runs. -/
def Page.beforeRecovery : Page :=
  fixGameManagerInitialization (setupErrorRecovery (fixPlayerLoopRecursion Env.quiet Page.initial))

/-! ## Runs of the GameManager initialiser -/

/-- The events are firings of the two timers of one run of `fixGameManagerInitialization`:
its poll interval, of handle `n`, and its timeout, of handle `n + 1`. -/
def OwnTimers (n : Nat) (events : List (Event × Env)) : Prop :=
  ∀ e ∈ events, e.1 = Event.timer n ∨ e.1 = Event.timer (n + 1)

instance (n : Nat) (events : List (Event × Env)) : Decidable (OwnTimers n events) := by
  unfold OwnTimers; infer_instance

/-- The run whose interval has handle `n` has come to its end on page `q`: the GameManager
counts as found, the interval is cleared, and the handle `n + 1` belongs, if to anything,
to the run's timeout. -/
structure Settled (n : Nat) (q : Page) : Prop where
  found : q.fixes.gameManagerFound = true
  cleared : ∀ t ∈ q.timers, t.handle ≠ n
  timeout : ∀ t ∈ q.timers, t.handle = n + 1 →
    t.task = .gameManagerTimeout n ∧ t.repeating = false

/-- An environment in which the runtime handle is present and `SendMessage` throws. -/
def Env.noGameManager : Env :=
  { now := 0, search := "?user_name=Alice&balance=42.5"
    unityInstance := some { sendMessage := .error "GameManager not found" }
    sfs2x := none }

/-- An environment in which the runtime handle is present and `SendMessage` returns. -/
def Env.unityReady : Env :=
  { now := 0, search := "", unityInstance := some { sendMessage := .ok () }, sfs2x := none }

/-! ## Well-formed numbers -/

/-- The text is a non-empty run of decimal digits and nothing else. -/
def isDigits (s : List Char) : Bool :=
  !(takeDigits s).1.isEmpty && (takeDigits s).2.isEmpty

/-- The text is empty or is exactly one `ExponentPart`. -/
def isExponentOrEmpty : List Char → Bool
  | [] => true
  | c :: cs =>
    (c == 'e' || c == 'E') &&
      (match cs with
        | '-' :: r => isDigits r
        | '+' :: r => isDigits r
        | r => isDigits r)

/-- The text as a whole is a `StrUnsignedDecimalLiteral`. -/
def isUnsignedLiteral (body : List Char) : Bool :=
  if body == "Infinity".data then true
  else
    !((takeDigits body).1.isEmpty &&
        (match (takeDigits body).2 with
          | '.' :: r => takeDigits r
          | r => ([], r)).1.isEmpty) &&
      isExponentOrEmpty
        (match (takeDigits body).2 with
          | '.' :: r => takeDigits r
          | r => ([], r)).2

/-- The text as a whole is a well-formed number: a `StrDecimalLiteral` with nothing before
or after it. -/
def isDecimalLiteral (s : String) : Bool :=
  match s.data with
  | '-' :: r => isUnsignedLiteral r
  | '+' :: r => isUnsignedLiteral r
  | r => isUnsignedLiteral r

/-! ## Decimal literals taken apart

A well-formed number written out in its parts, and the number it denotes. -/

/-- The text of an optional sign: `some true` is `-`, `some false` is `+`. -/
def signText : Option Bool → List Char
  | none => []
  | some true => ['-']
  | some false => ['+']

/-- The exponent part of a decimal literal: the indicator `e` or `E`, a sign, digits. -/
structure ExponentText where
  upper : Bool
  sign : Option Bool
  digits : List Char

/-- The text of an exponent part. -/
def ExponentText.text (e : ExponentText) : List Char :=
  (if e.upper then 'E' else 'e') :: (signText e.sign ++ e.digits)

/-- The integer an exponent part denotes. -/
def ExponentText.value (e : ExponentText) : Int :=
  if e.sign = some true then - (digitsValue e.digits : Int) else (digitsValue e.digits : Int)

/-- A decimal literal taken apart: sign, digits before the point, the digits after the
point when there is a point, and the exponent part when there is one. -/
structure DecimalLiteral where
  sign : Option Bool
  intDigits : List Char
  fraction : Option (List Char)
  exponent : Option ExponentText

namespace DecimalLiteral

/-- The digits after the point, none when there is no point. -/
def fracDigits (l : DecimalLiteral) : List Char :=
  match l.fraction with
  | none => []
  | some f => f

/-- The text of the point and the digits after it. -/
def fractionText (l : DecimalLiteral) : List Char :=
  match l.fraction with
  | none => []
  | some f => '.' :: f

/-- The text of the exponent part. -/
def exponentText (l : DecimalLiteral) : List Char :=
  match l.exponent with
  | none => []
  | some e => e.text

/-- The integer the exponent part denotes, 0 when there is none. -/
def exponentValue (l : DecimalLiteral) : Int :=
  match l.exponent with
  | none => 0
  | some e => e.value

/-- The text of the literal after its sign. -/
def body (l : DecimalLiteral) : List Char :=
  l.intDigits ++ (l.fractionText ++ l.exponentText)

/-- The text of the literal. -/
def text (l : DecimalLiteral) : List Char :=
  signText l.sign ++ l.body

/-- The parts form a `StrDecimalLiteral`: every digit is a decimal digit, there is a digit
before or after the point, and an exponent part has a digit. -/
def WellFormed (l : DecimalLiteral) : Prop :=
  (∀ c ∈ l.intDigits, isDecimalDigit c = true) ∧
  (∀ c ∈ l.fracDigits, isDecimalDigit c = true) ∧
  (l.intDigits ≠ [] ∨ l.fracDigits ≠ []) ∧
  (∀ e, l.exponent = some e → (∀ c ∈ e.digits, isDecimalDigit c = true) ∧ e.digits ≠ [])

/-- The numeric value of the literal: the binary64 value nearest to the decimal whose
digits are those before and after the point and whose exponent is the written exponent
less the number of digits after the point. -/
def number (l : DecimalLiteral) : JsNumber :=
  decimalToNumber (l.sign == some true) (digitsValue (l.intDigits ++ l.fracDigits))
    (l.exponentValue - (l.fracDigits.length : Int))

end DecimalLiteral

/-- The literal `42.5` taken apart. -/
def DecimalLiteral.sample : DecimalLiteral :=
  { sign := none, intDigits := ['4', '2'], fraction := some ['5'], exponent := none }

/-! ## Environments of the connection monitor -/

/-- An environment in which the session client is present, reports that it is not
connected, and `connect` throws. -/
def Env.refusing : Env :=
  { now := 0, search := "", unityInstance := none
    sfs2x := some
      { isConnected := .ok false, isConnectedAgain := .ok false
        connect := .error "Error: socket closed" } }

/-- An environment in which the session client is present and `isConnected()` throws. -/
def Env.faulty : Env :=
  { now := 0, search := "", unityInstance := none
    sfs2x := some
      { isConnected := .error "TypeError: sfs.isConnected is not a function"
        isConnectedAgain := .error "TypeError: sfs.isConnected is not a function"
        connect := .ok () } }

/-- An environment in which the session client is present and connected. -/
def Env.connected : Env :=
  { now := 0, search := "", unityInstance := none
    sfs2x := some { isConnected := .ok true, isConnectedAgain := .ok true, connect := .ok () } }

/-! ## The counter of the frame guard -/

/-- The closure variable `frameCount` of the outermost wrapper, 0 for the bare primitive. -/
def Raf.frameCount : Raf → Nat
  | .native => 0
  | .guard frameCount _ _ => frameCount

/-- The page after the wrapper was installed on load and 100 requests were made at the
instant of the install: the consecutive counter stands at 100. -/
def Page.afterHundred : Page :=
  requestAll (fixPlayerLoopRecursion Env.quiet Page.initial)
    (List.replicate 100 (Callback.client 0, Env.quiet))

/-! ## Runs of frame requests among other events -/

/-- The closure variable `lastFrameTime` of the outermost wrapper, 0 for the bare
primitive. -/
def Raf.lastFrameTime : Raf → Time
  | .native => 0
  | .guard _ lastFrameTime _ => lastFrameTime

/-- Whether the task is the deferred callback of the frame guard (lines 49-53). -/
def TimerTask.isFrameDelay : TimerTask → Bool
  | .frameDelay _ _ _ => true
  | _ => false

/-- An event on page `p` that neither requests a frame nor runs a deferred callback of the
frame guard: a logged error, the firing of any other timer, or a `ready` signal after
start-up (start-up itself requests a frame for `monitorPerformance`). -/
def Event.foreign (p : Page) : Event → Bool
  | .ready => p.fixes.isInitialized
  | .requestFrame _ => false
  | .logError _ => true
  | .timer handle =>
    match p.timers.find? (fun t => t.handle == handle) with
    | none => true
    | some t => !t.task.isFrameDelay

/-- The frame requests among the events, each with its environment, in order. -/
def requestEventsOf : List (Event × Env) → List (Callback × Env)
  | [] => []
  | (.requestFrame callback, env) :: rest => (callback, env) :: requestEventsOf rest
  | (.ready, _) :: rest => requestEventsOf rest
  | (.logError _, _) :: rest => requestEventsOf rest
  | (.timer _, _) :: rest => requestEventsOf rest

/-- The callbacks of the frame requests among the events, in order. -/
def requestsOf (events : List (Event × Env)) : List Callback :=
  (requestEventsOf events).map (fun r => r.1)

/-- The callbacks that were passed to the original `requestAnimationFrame`, in order. -/
def passedOn : List Effect → List Callback
  | [] => []
  | .originalRAF callback :: rest => callback :: passedOn rest
  | .enter _ :: rest => passedOn rest
  | .originalError _ :: rest => passedOn rest
  | .callback _ _ :: rest => passedOn rest
  | .sendMessage _ _ :: rest => passedOn rest
  | .isConnected :: rest => passedOn rest
  | .connect _ _ :: rest => passedOn rest
  | .dispatchEvent _ _ :: rest => passedOn rest
  | .appendChild _ :: rest => passedOn rest
  | .uncaught _ :: rest => passedOn rest

/-- A run from page `p` in which every frame request arrives with a delta below 1 ms (the
delta of line 39: its clock reading less `lastFrameTime`) and every other event is foreign
to the frame guard, so that no deferred callback of the guard runs in it. -/
def RapidRun (p : Page) : List (Event × Env) → Prop
  | [] => True
  | (ev, env) :: rest =>
    (match ev with
      | .requestFrame _ => env.now - p.requestAnimationFrame.lastFrameTime < 1
      | .ready => Event.foreign p .ready = true
      | .logError args => Event.foreign p (.logError args) = true
      | .timer handle => Event.foreign p (.timer handle) = true) ∧
    RapidRun (step ev env p) rest

/-- A page leaves the frame guard as another page left it: the same value of
`window.requestAnimationFrame` with the same closure variables, the same callbacks passed
to the original primitive, and the same `playerLoopFixed`. -/
structure Quiet (p q : Page) : Prop where
  frames : q.requestAnimationFrame = p.requestAnimationFrame
  passed : passedOn q.trace = passedOn p.trace
  fixed : q.fixes.playerLoopFixed = p.fixes.playerLoopFixed

/-- An environment in which no collaborator is present and the clock reads `t`. -/
def Env.atTime (t : Time) : Env :=
  { now := t, search := "", unityInstance := none, sfs2x := none }

/-- A frame request as an event. -/
def requestEvent (r : Callback × Env) : Event × Env :=
  (Event.requestFrame r.1, r.2)

/-- The page after the 101st request at the instant of the install: the request is
deferred and its 16 ms timer, of handle 1, is pending. -/
def Page.afterDetection : Page :=
  UnityWebGLFixes.requestAnimationFrame (Callback.client 1) Env.quiet Page.afterHundred

/-- The page after a further request 15.5 ms later: its delta is 1 ms or more, so the
consecutive counter is 0, and the timer of the detection is still pending. -/
def Page.afterSlowRequest : Page :=
  UnityWebGLFixes.requestAnimationFrame (Callback.client 0) (Env.atTime (31 / 2))
    Page.afterDetection

/-- A request at 15.9 ms, the pending timer firing at 16 ms, and 99 requests at 16.1 ms. -/
def resumedEvents : List (Event × Env) :=
  (Event.requestFrame (Callback.client 0), Env.atTime (159 / 10)) ::
    (Event.timer 1, Env.atTime 16) ::
      List.replicate 99 (Event.requestFrame (Callback.client 0), Env.atTime (161 / 10))

/-! # Theorems -/

/-! ## Traces of the installers -/

@[simp] theorem record_trace (p : Page) (e : Effect) : (p.record e).trace = p.trace ++ [e] := rfl

@[simp] theorem setInterval_trace (p : Page) (task : TimerTask) (d : Nat) :
    (p.setInterval task d).trace = p.trace := rfl

@[simp] theorem setTimeout_trace (p : Page) (task : TimerTask) (d : Nat) :
    (p.setTimeout task d).trace = p.trace := rfl

@[simp] theorem clearInterval_trace (p : Page) (h : Nat) :
    (p.clearInterval h).trace = p.trace := rfl

theorem fixPlayerLoopRecursion_trace (env : Env) (p : Page) :
    (fixPlayerLoopRecursion env p).trace = p.trace ++ [.enter .fixPlayerLoopRecursion] := by
  unfold fixPlayerLoopRecursion
  split <;> rfl

theorem fixGameManagerInitialization_trace (p : Page) :
    (fixGameManagerInitialization p).trace
      = p.trace ++ [.enter .fixGameManagerInitialization] := by
  unfold fixGameManagerInitialization
  split <;> rfl

theorem fixSmartFoxConnection_trace (p : Page) :
    (fixSmartFoxConnection p).trace = p.trace ++ [.enter .fixSmartFoxConnection] := rfl

/-! ## C1: routing of logged errors -/

/-- C1: for the wrapper that `setupErrorRecovery` puts around the browser's `console.error`,
and a message obtained by joining the arguments with single spaces: the original function
is called (once, with the same arguments) exactly when the message contains none of the
three patterns; in that case the call does nothing else, so no recovery function is
entered; when a pattern matches the original is not called; and when the PlayerLoop
pattern matches, the only effect is one entry into `fixPlayerLoopRecursion`. -/
theorem consoleError_routes (args : List String) (env : Env) (p : Page)
    (hwrapped : p.consoleError = .recovery .native) :
    (((consoleError args env p).trace.count (.originalError args)
        = p.trace.count (.originalError args) + 1) ↔ matchesNone (join " " args)) ∧
    (matchesNone (join " " args) →
      consoleError args env p = p.record (.originalError args)) ∧
    (matchesNone (join " " args) →
      ∀ f, (consoleError args env p).trace.count (.enter f) = p.trace.count (.enter f)) ∧
    (¬ matchesNone (join " " args) →
      ∀ a, (consoleError args env p).trace.count (.originalError a)
        = p.trace.count (.originalError a)) ∧
    (includes (join " " args) "PlayerLoop internal function has been called recursively" = true →
      (consoleError args env p).trace = p.trace ++ [.enter .fixPlayerLoopRecursion]) := by
  unfold matchesNone consoleError
  rw [hwrapped]
  simp only [ErrorLogger.call]
  cases h1 : includes (join " " args) "PlayerLoop internal function has been called recursively"
  · cases h2 : includes (join " " args) "object GameManager not found"
    · cases h3 : includes (join " " args) "SmartFoxServer lost"
      · simp [List.count_append]
      · simp [fixSmartFoxConnection_trace, List.count_append]
    · simp [fixGameManagerInitialization_trace, List.count_append]
  · simp [fixPlayerLoopRecursion_trace, List.count_append]

/-- C1 at an unrelated message logged through the freshly installed wrapper. -/
theorem consoleError_routes_witness :
    (setupErrorRecovery Page.initial).consoleError = .recovery .native ∧
    consoleError ["Texture", "load failed"] Env.quiet (setupErrorRecovery Page.initial)
      = (setupErrorRecovery Page.initial).record (.originalError ["Texture", "load failed"]) :=
  ⟨rfl, (consoleError_routes ["Texture", "load failed"] Env.quiet
    (setupErrorRecovery Page.initial) rfl).2.1 (by decide)⟩

/-! ## Requests made one directly after another -/

theorem requestAnimationFrame_pass (callback : Callback) (env : Env) (p : Page) (k : Nat)
    (last : Time) (hraf : p.requestAnimationFrame = .guard k last .native)
    (hfast : env.now - last < 1) (hk : k + 1 ≤ 100) :
    requestAnimationFrame callback env p
      = { p with
          requestAnimationFrame := .guard (k + 1) env.now .native
          trace := p.trace ++ [.originalRAF callback] } := by
  have hk2 : ¬ (k + 1 > 100) := by omega
  simp [requestAnimationFrame, hraf, Raf.request, hfast, hk2, Page.record]

theorem requestAll_rapid (reqs : List (Callback × Env)) :
    ∀ (k : Nat) (last : Time) (p : Page),
      p.requestAnimationFrame = .guard k last .native → k + reqs.length ≤ 100 →
      Rapid last reqs →
      requestAll p reqs
        = { p with
            requestAnimationFrame := .guard (k + reqs.length) (lastTime last reqs) .native
            trace := p.trace ++ reqs.map (fun r => Effect.originalRAF r.1) } := by
  induction reqs with
  | nil =>
    intro k last p hraf _ _
    cases p
    simp_all [requestAll, lastTime]
  | cons r rest ih =>
    intro k last p hraf hlen hrapid
    obtain ⟨callback, env⟩ := r
    simp only [List.length_cons] at hlen
    obtain ⟨hfast, hrest⟩ := hrapid
    simp only [requestAll]
    rw [requestAnimationFrame_pass callback env p k last hraf hfast (by omega)]
    rw [ih (k + 1) env.now _ rfl (by omega) hrest]
    simp [lastTime, Nat.add_assoc, Nat.add_comm 1]

theorem rapid_append (xs ys : List (Callback × Env)) :
    ∀ last : Time, Rapid last (xs ++ ys) ↔ Rapid last xs ∧ Rapid (lastTime last xs) ys := by
  induction xs with
  | nil => intro last; simp [Rapid, lastTime]
  | cons x rest ih =>
    intro last
    obtain ⟨callback, env⟩ := x
    simp [Rapid, lastTime, ih, and_assoc]

theorem rapid_replicate (callback : Callback) (env : Env) (n : Nat) :
    ∀ last : Time, env.now - last < 1 → Rapid last (List.replicate n (callback, env)) := by
  induction n with
  | zero => intro last _; simp [Rapid]
  | succ n ih =>
    intro last h
    simp only [List.replicate_succ, Rapid]
    exact ⟨h, ih env.now (by simp)⟩

theorem lastTime_replicate (callback : Callback) (env : Env) (n : Nat) :
    ∀ last : Time, lastTime last (List.replicate (n + 1) (callback, env)) = env.now := by
  induction n with
  | zero => intro last; simp [lastTime]
  | succ n ih =>
    intro last
    rw [List.replicate_succ]
    simp only [lastTime]
    exact ih env.now

/-! ## Preservation of the invariants -/

theorem keepsFixed_rfl (p : Page) : KeepsFixed p p := fun h => h

theorem keepsFixed_trans {p q r : Page} (h₁ : KeepsFixed p q) (h₂ : KeepsFixed q r) :
    KeepsFixed p r := fun h => h₂ (h₁ h)

theorem request_depth (t : Time) (r : Raf) : (r.request t).1.depth = r.depth := by
  induction r with
  | native => rfl
  | guard k last orig ih =>
    simp only [Raf.request]
    split
    · split <;> simp [Raf.depth, ih]
    · simp [Raf.depth, ih]

theorem resume_depth (level : Nat) (t : Time) (r : Raf) :
    (r.resume level t).depth = r.depth := by
  induction r with
  | native => rfl
  | guard k last orig ih =>
    simp only [Raf.resume]
    split <;> simp [Raf.depth, ih]

theorem inv_initial : Inv Page.initial := by
  constructor <;> simp [Page.initial, UnityFixes.initial, Raf.depth]

theorem inv_record {p : Page} (h : Inv p) (e : Effect) : Inv (p.record e) :=
  ⟨h.wrapped, h.retries, h.budget, h.fresh⟩

theorem inv_setInterval {p : Page} (h : Inv p) (task : TimerTask) (d : Nat) :
    Inv (p.setInterval task d) := by
  refine ⟨h.wrapped, h.retries, h.budget, ?_⟩
  intro t ht
  simp only [Page.setInterval, List.mem_append, List.mem_singleton] at ht ⊢
  rcases ht with ht | ht
  · exact Nat.lt_succ_of_lt (h.fresh t ht)
  · subst ht; exact Nat.lt_succ_self _

theorem inv_setTimeout {p : Page} (h : Inv p) (task : TimerTask) (d : Nat) :
    Inv (p.setTimeout task d) := by
  refine ⟨h.wrapped, h.retries, h.budget, ?_⟩
  intro t ht
  simp only [Page.setTimeout, List.mem_append, List.mem_singleton] at ht ⊢
  rcases ht with ht | ht
  · exact Nat.lt_succ_of_lt (h.fresh t ht)
  · subst ht; exact Nat.lt_succ_self _

theorem inv_clearInterval {p : Page} (h : Inv p) (handle : Nat) :
    Inv (p.clearInterval handle) := by
  refine ⟨h.wrapped, h.retries, h.budget, ?_⟩
  intro t ht
  simp only [Page.clearInterval, List.mem_filter] at ht
  exact h.fresh t ht.1

theorem inv_fixPlayerLoopRecursion {p : Page} (h : Inv p) (env : Env) :
    Inv (fixPlayerLoopRecursion env p) := by
  unfold fixPlayerLoopRecursion
  split
  · exact inv_record h _
  · rename_i hfix
    have hw := h.wrapped
    simp only [hfix] at hw
    exact ⟨by simp [Page.record, Raf.depth, hw], h.retries, h.budget, h.fresh⟩

theorem keepsFixed_fixPlayerLoopRecursion (env : Env) (p : Page) :
    KeepsFixed p (fixPlayerLoopRecursion env p) := by
  unfold fixPlayerLoopRecursion KeepsFixed
  split <;> simp [Page.record]

theorem inv_createGameManagerFallback {p : Page} (h : Inv p) (env : Env) :
    Inv (createGameManagerFallback env p) :=
  ⟨h.wrapped, h.retries, h.budget, h.fresh⟩

theorem inv_fixGameManagerInitialization {p : Page} (h : Inv p) :
    Inv (fixGameManagerInitialization p) := by
  unfold fixGameManagerInitialization
  split
  · exact inv_record h _
  · exact inv_setTimeout (inv_setInterval (inv_record h _) _ _) _ _

theorem keepsFixed_fixGameManagerInitialization (p : Page) :
    KeepsFixed p (fixGameManagerInitialization p) := by
  unfold fixGameManagerInitialization KeepsFixed
  split <;> exact fun h => h

theorem inv_fixSmartFoxConnection {p : Page} (h : Inv p) : Inv (fixSmartFoxConnection p) :=
  inv_setTimeout (inv_setInterval (inv_record h _) _ _) _ _

theorem keepsFixed_fixSmartFoxConnection (p : Page) :
    KeepsFixed p (fixSmartFoxConnection p) := fun h => h

theorem inv_showConnectionError {p : Page} (h : Inv p) : Inv (showConnectionError p) :=
  inv_record (inv_record h _) _

theorem inv_call (args : List String) (env : Env) (logger : ErrorLogger) :
    ∀ {p : Page}, Inv p → Inv (logger.call args env p) := by
  induction logger with
  | native => intro p h; exact inv_record h _
  | recovery orig ih =>
    intro p h
    simp only [ErrorLogger.call]
    split
    · exact inv_fixPlayerLoopRecursion h env
    · split
      · exact inv_fixGameManagerInitialization h
      · split
        · exact inv_fixSmartFoxConnection h
        · exact ih h

theorem keepsFixed_call (args : List String) (env : Env) (logger : ErrorLogger) :
    ∀ p : Page, KeepsFixed p (logger.call args env p) := by
  induction logger with
  | native => intro p h; exact h
  | recovery orig ih =>
    intro p
    simp only [ErrorLogger.call]
    split
    · exact keepsFixed_fixPlayerLoopRecursion env p
    · split
      · exact keepsFixed_fixGameManagerInitialization p
      · split
        · exact keepsFixed_fixSmartFoxConnection p
        · exact ih p

theorem inv_consoleError {p : Page} (h : Inv p) (args : List String) (env : Env) :
    Inv (consoleError args env p) :=
  inv_call args env p.consoleError h

theorem keepsFixed_consoleError (args : List String) (env : Env) (p : Page) :
    KeepsFixed p (consoleError args env p) :=
  keepsFixed_call args env p.consoleError p

theorem inv_checkGameManager {p : Page} (h : Inv p) (handle : Nat) (env : Env) :
    Inv (checkGameManager handle env p).page := by
  unfold checkGameManager
  split
  · exact h
  · split
    · apply inv_clearInterval
      exact ⟨h.wrapped, h.retries, h.budget, h.fresh⟩
    · exact inv_clearInterval (inv_createGameManagerFallback (inv_record h _) env) handle

theorem keepsFixed_checkGameManager (handle : Nat) (env : Env) (p : Page) :
    KeepsFixed p (checkGameManager handle env p).page := by
  unfold checkGameManager
  split
  · exact keepsFixed_rfl p
  · split <;> exact fun h => h

theorem inv_gameManagerTimeout {p : Page} (h : Inv p) (interval : Nat) (env : Env) :
    Inv (gameManagerTimeout interval env p).page := by
  unfold gameManagerTimeout
  split
  · exact h
  · exact inv_createGameManagerFallback
      (inv_consoleError (inv_clearInterval h interval) _ env) env

theorem keepsFixed_gameManagerTimeout (interval : Nat) (env : Env) (p : Page) :
    KeepsFixed p (gameManagerTimeout interval env p).page := by
  unfold gameManagerTimeout
  split
  · exact keepsFixed_rfl p
  · exact fun h => keepsFixed_consoleError _ env (p.clearInterval interval) h

theorem inv_connectionMonitor {p : Page} (h : Inv p) (env : Env) :
    Inv (connectionMonitor env p).page := by
  unfold connectionMonitor
  split
  · exact h
  · split
    · exact inv_record h _
    · split
      · rename_i hlt
        split
        · exact ⟨h.wrapped, Nat.succ_le_of_lt hlt.2, h.budget, h.fresh⟩
        · exact inv_consoleError (inv_record (inv_record h _) _) _ env
      · split
        · exact inv_record (inv_record h _) _
        · split
          · exact ⟨h.wrapped, Nat.zero_le _, h.budget, h.fresh⟩
          · exact inv_record (inv_record h _) _

theorem keepsFixed_connectionMonitor (env : Env) (p : Page) :
    KeepsFixed p (connectionMonitor env p).page := by
  unfold connectionMonitor
  split
  · exact keepsFixed_rfl p
  · split
    · exact fun h => h
    · split
      · split
        · exact fun h => h
        · exact fun h => keepsFixed_consoleError _ env
            ((p.record .isConnected).record (.connect "gameserver.dlgame.online" 8443)) h
      · split
        · exact fun h => h
        · split <;> exact fun h => h

theorem inv_connectionCleanup {p : Page} (h : Inv p) (interval : Nat) (env : Env) :
    Inv (connectionCleanup interval env p).page := by
  unfold connectionCleanup
  split
  · exact inv_showConnectionError (inv_consoleError (inv_clearInterval h interval) _ env)
  · exact inv_clearInterval h interval

theorem keepsFixed_connectionCleanup (interval : Nat) (env : Env) (p : Page) :
    KeepsFixed p (connectionCleanup interval env p).page := by
  unfold connectionCleanup
  split
  · exact fun h => keepsFixed_consoleError _ env (p.clearInterval interval) h
  · exact fun h => h

theorem inv_frameDelay {p : Page} (h : Inv p) (callback : Callback) (currentTime : Time)
    (level : Nat) (env : Env) : Inv (frameDelay callback currentTime level env p).page := by
  refine ⟨?_, h.retries, h.budget, h.fresh⟩
  simpa [frameDelay, Page.record, resume_depth] using h.wrapped

theorem inv_requestAnimationFrame {p : Page} (h : Inv p) (callback : Callback) (env : Env) :
    Inv (requestAnimationFrame callback env p) := by
  unfold requestAnimationFrame
  split
  · refine ⟨?_, h.retries, h.budget, h.fresh⟩
    simpa [Page.record, request_depth] using h.wrapped
  · apply inv_setTimeout
    refine ⟨?_, h.retries, h.budget, h.fresh⟩
    simpa [request_depth] using h.wrapped

theorem keepsFixed_requestAnimationFrame (callback : Callback) (env : Env) (p : Page) :
    KeepsFixed p (requestAnimationFrame callback env p) := by
  unfold requestAnimationFrame
  split <;> exact fun h => h

theorem inv_initializeFixes {p : Page} (h : Inv p) (env : Env) :
    Inv (initializeFixes env p) := by
  unfold initializeFixes
  split
  · exact h
  · have h1 := inv_fixPlayerLoopRecursion h env
    have h2 : Inv (setupErrorRecovery (fixPlayerLoopRecursion env p)) :=
      ⟨h1.wrapped, h1.retries, h1.budget, h1.fresh⟩
    have hq := inv_requestAnimationFrame
      (inv_fixSmartFoxConnection (inv_fixGameManagerInitialization h2)) .monitorPerformance env
    exact ⟨hq.wrapped, hq.retries, hq.budget, hq.fresh⟩

theorem keepsFixed_initializeFixes (env : Env) (p : Page) :
    KeepsFixed p (initializeFixes env p) := by
  unfold initializeFixes
  split
  · exact keepsFixed_rfl p
  · intro h
    have h1 := keepsFixed_fixPlayerLoopRecursion env p h
    have h2 : (setupErrorRecovery (fixPlayerLoopRecursion env p)).fixes.playerLoopFixed = true :=
      h1
    have h3 := keepsFixed_fixGameManagerInitialization _ h2
    have h4 := keepsFixed_fixSmartFoxConnection _ h3
    exact keepsFixed_requestAnimationFrame .monitorPerformance env _ h4

theorem inv_settle {c : Completion} (h : Inv c.page) : Inv c.settle := by
  unfold Completion.settle
  split
  · exact h
  · exact inv_record h _

theorem keepsFixed_settle {p : Page} {c : Completion} (h : KeepsFixed p c.page) :
    KeepsFixed p c.settle := by
  unfold Completion.settle
  split
  · exact h
  · exact h

theorem inv_runTask {p : Page} (h : Inv p) (handle : Nat) (env : Env) (task : TimerTask) :
    Inv (runTask handle env p task).page := by
  cases task with
  | checkGameManager => exact inv_checkGameManager h handle env
  | gameManagerTimeout interval => exact inv_gameManagerTimeout h interval env
  | connectionMonitor => exact inv_connectionMonitor h env
  | connectionCleanup interval => exact inv_connectionCleanup h interval env
  | frameDelay callback currentTime level => exact inv_frameDelay h callback currentTime level env

theorem keepsFixed_runTask (handle : Nat) (env : Env) (p : Page) (task : TimerTask) :
    KeepsFixed p (runTask handle env p task).page := by
  cases task with
  | checkGameManager => exact keepsFixed_checkGameManager handle env p
  | gameManagerTimeout interval => exact keepsFixed_gameManagerTimeout interval env p
  | connectionMonitor => exact keepsFixed_connectionMonitor env p
  | connectionCleanup interval => exact keepsFixed_connectionCleanup interval env p
  | frameDelay callback currentTime level => exact fun h => h

theorem inv_fire {p : Page} (h : Inv p) (t : Timer) (env : Env) : Inv (fire t env p) := by
  unfold fire
  split
  · exact inv_settle (inv_runTask h _ env _)
  · exact inv_settle (inv_runTask (inv_clearInterval h _) _ env _)

theorem keepsFixed_fire (t : Timer) (env : Env) (p : Page) : KeepsFixed p (fire t env p) := by
  unfold fire
  split
  · exact keepsFixed_settle (keepsFixed_runTask _ env p _)
  · exact keepsFixed_settle
      (fun h => keepsFixed_runTask t.handle env (p.clearInterval t.handle) t.task h)

theorem inv_step {p : Page} (h : Inv p) (ev : Event) (env : Env) : Inv (step ev env p) := by
  cases ev with
  | ready => exact inv_initializeFixes h env
  | requestFrame callback => exact inv_requestAnimationFrame h callback env
  | logError args => exact inv_consoleError h args env
  | timer handle =>
    simp only [step]
    split
    · exact h
    · exact inv_fire h _ env

theorem keepsFixed_step (ev : Event) (env : Env) (p : Page) : KeepsFixed p (step ev env p) := by
  cases ev with
  | ready => exact keepsFixed_initializeFixes env p
  | requestFrame callback => exact keepsFixed_requestAnimationFrame callback env p
  | logError args => exact keepsFixed_consoleError args env p
  | timer handle =>
    simp only [step]
    split
    · exact keepsFixed_rfl p
    · exact keepsFixed_fire _ env p

theorem reachable_inv {p : Page} (h : Reachable p) : Inv p := by
  induction h with
  | initial => exact inv_initial
  | step ev env _ ih => exact inv_step ih ev env

/-! ## C3: the installer is idempotent -/

theorem fixPlayerLoopRecursion_fixed (env : Env) (p : Page) :
    (fixPlayerLoopRecursion env p).fixes.playerLoopFixed = true := by
  unfold fixPlayerLoopRecursion
  split
  · assumption
  · rfl

theorem fixPlayerLoopRecursion_of_fixed (env : Env) (p : Page)
    (h : p.fixes.playerLoopFixed = true) :
    fixPlayerLoopRecursion env p = p.record (.enter .fixPlayerLoopRecursion) := by
  simp [fixPlayerLoopRecursion, h]

/-- C3: `fixPlayerLoopRecursion` is idempotent. On every page a second call in sequence
changes nothing (it only returns early), and the two calls together add one wrapper if
`playerLoopFixed` was unset and none if it was set; on every reachable page the frame
primitive is wrapped exactly once after the two calls, and wrapped exactly once whenever
`playerLoopFixed` is set. No event of the page lowers `playerLoopFixed` once it is set. -/
theorem fixPlayerLoopRecursion_idempotent :
    (∀ (env₁ env₂ : Env) (p : Page),
      fixPlayerLoopRecursion env₂ (fixPlayerLoopRecursion env₁ p)
        = (fixPlayerLoopRecursion env₁ p).record (.enter .fixPlayerLoopRecursion)) ∧
    (∀ (env₁ env₂ : Env) (p : Page),
      (fixPlayerLoopRecursion env₂ (fixPlayerLoopRecursion env₁ p)).requestAnimationFrame.depth
        = p.requestAnimationFrame.depth + if p.fixes.playerLoopFixed then 0 else 1) ∧
    (∀ (env₁ env₂ : Env) (p : Page), Reachable p →
      (fixPlayerLoopRecursion env₂
        (fixPlayerLoopRecursion env₁ p)).requestAnimationFrame.depth = 1) ∧
    (∀ p : Page, Reachable p → p.fixes.playerLoopFixed = true →
      p.requestAnimationFrame.depth = 1) ∧
    (∀ (ev : Event) (env : Env) (p : Page), p.fixes.playerLoopFixed = true →
      (step ev env p).fixes.playerLoopFixed = true) := by
  have hsecond : ∀ (env₁ env₂ : Env) (p : Page),
      fixPlayerLoopRecursion env₂ (fixPlayerLoopRecursion env₁ p)
        = (fixPlayerLoopRecursion env₁ p).record (.enter .fixPlayerLoopRecursion) :=
    fun env₁ env₂ p =>
      fixPlayerLoopRecursion_of_fixed env₂ _ (fixPlayerLoopRecursion_fixed env₁ p)
  refine ⟨hsecond, ?_, ?_, ?_, ?_⟩
  · intro env₁ env₂ p
    rw [hsecond]
    cases hfix : p.fixes.playerLoopFixed <;>
      simp [fixPlayerLoopRecursion, hfix, Page.record, Raf.depth]
  · intro env₁ env₂ p hp
    rw [hsecond]
    have hinv := inv_fixPlayerLoopRecursion (reachable_inv hp) env₁
    have hw := hinv.wrapped
    rw [fixPlayerLoopRecursion_fixed] at hw
    simpa [Page.record] using hw
  · intro p hp hfix
    have hw := (reachable_inv hp).wrapped
    simpa [hfix] using hw
  · intro ev env p hfix
    exact keepsFixed_step ev env p hfix

/-- C3 on the page as loaded: two calls in sequence leave one wrapper. -/
theorem fixPlayerLoopRecursion_idempotent_witness :
    Reachable Page.initial ∧
    (fixPlayerLoopRecursion Env.quiet
      (fixPlayerLoopRecursion Env.quiet Page.initial)).requestAnimationFrame.depth = 1 :=
  ⟨Reachable.initial,
    fixPlayerLoopRecursion_idempotent.2.2.1 Env.quiet Env.quiet Page.initial Reachable.initial⟩

/-! ## C4: a run of Connection Recovery under its own timers -/

theorem firingOrder_recovery :
    (firingOrder (armedSince Page.beforeRecovery
      (fixSmartFoxConnection Page.beforeRecovery)) 20000 false).map (fun f => (f.due, f.handle))
    = [(5000, 3), (10000, 3), (10000, 4), (15000, 3), (20000, 3)] := by decide

/-- C4 at the run the claim describes (counter 0, client present, never connected,
`connect` never throwing), started by `initializeFixes` and followed for a minute: the
interval ticks every 5000 ms and the cleanup is due after 5 × 2000 = 10000 ms, so whichever
of the two timers due at 10000 ms goes first, at most 2 reconnect attempts are made, the
counter ends below 5, the interval is cleared with the counter short of the bound, and no
overlay is appended. -/
theorem connection_recovery_stops_short (laterFirst : Bool) :
    Page.beforeRecovery.fixes.connectionRetries = 0 ∧
    (elapse Page.beforeRecovery (fixSmartFoxConnection Page.beforeRecovery) 60000 laterFirst
        Env.disconnected).fixes.connectionRetries = (if laterFirst then 1 else 2) ∧
    (elapse Page.beforeRecovery (fixSmartFoxConnection Page.beforeRecovery) 60000 laterFirst
        Env.disconnected).trace.count (.connect "gameserver.dlgame.online" 8443)
      = (if laterFirst then 1 else 2) ∧
    armedSince Page.beforeRecovery
      (elapse Page.beforeRecovery (fixSmartFoxConnection Page.beforeRecovery) 60000 laterFirst
        Env.disconnected) = [] ∧
    (elapse Page.beforeRecovery (fixSmartFoxConnection Page.beforeRecovery) 60000 laterFirst
        Env.disconnected).trace.count (.appendChild "connection-error") = 0 := by
  cases laterFirst <;> decide

/-! ## C5, C6: one run of the GameManager initialiser -/

theorem call_timeout_message (env : Env) (logger : ErrorLogger) :
    ∀ p : Page, logger.call ["❌ GameManager initialization timeout"] env p
      = p.record (.originalError ["❌ GameManager initialization timeout"]) := by
  induction logger with
  | native => intro p; rfl
  | recovery orig ih =>
    intro p
    have h1 : includes (join " " ["❌ GameManager initialization timeout"])
        "PlayerLoop internal function has been called recursively" = false := by decide
    have h2 : includes (join " " ["❌ GameManager initialization timeout"])
        "object GameManager not found" = false := by decide
    have h3 : includes (join " " ["❌ GameManager initialization timeout"])
        "SmartFoxServer lost" = false := by decide
    simp only [ErrorLogger.call, h1, h2, h3]
    exact ih p

theorem find_armed_first (old : List Timer) (n : Nat) (a b : Timer)
    (hold : ∀ t ∈ old, t.handle < n) (ha : a.handle = n) :
    (old ++ [a, b]).find? (fun t => t.handle == n) = some a := by
  induction old with
  | nil => simp [List.find?, ha]
  | cons t rest ih =>
    have ht : t.handle < n := hold t (List.mem_cons_self _ _)
    have hne : (t.handle == n) = false := by simp; omega
    simp only [List.cons_append, List.find?, hne]
    exact ih (fun u hu => hold u (List.mem_cons_of_mem _ hu))

theorem find_armed_second (old : List Timer) (n : Nat) (a b : Timer)
    (hold : ∀ t ∈ old, t.handle < n) (ha : a.handle = n) (hb : b.handle = n + 1) :
    (old ++ [a, b]).find? (fun t => t.handle == n + 1) = some b := by
  induction old with
  | nil =>
    have hne : (a.handle == n + 1) = false := by simp; omega
    simp [List.find?, hne, hb]
  | cons t rest ih =>
    have ht : t.handle < n := hold t (List.mem_cons_self _ _)
    have hne : (t.handle == n + 1) = false := by simp; omega
    simp only [List.cons_append, List.find?, hne]
    exact ih (fun u hu => hold u (List.mem_cons_of_mem _ hu))

theorem find_none_of_cleared (ts : List Timer) (n : Nat) (h : ∀ t ∈ ts, t.handle ≠ n) :
    ts.find? (fun t => t.handle == n) = none := by
  rw [List.find?_eq_none]
  intro t ht
  simpa using h t ht

theorem fixGameManagerInitialization_timers (p₀ : Page)
    (hfound : p₀.fixes.gameManagerFound = false) :
    (fixGameManagerInitialization p₀).timers
      = p₀.timers ++
        [{ handle := p₀.nextHandle, delay := 1000, repeating := true, task := .checkGameManager },
         { handle := p₀.nextHandle + 1, delay := 30000, repeating := false,
           task := .gameManagerTimeout p₀.nextHandle }] := by
  simp [fixGameManagerInitialization, hfound, Page.setTimeout, Page.setInterval, Page.record]

theorem checkGameManager_thrown (handle : Nat) (env : Env) (p : Page) :
    (checkGameManager handle env p).thrown = none := by
  unfold checkGameManager
  split
  · rfl
  · split <;> rfl

theorem gameManagerTimeout_thrown (interval : Nat) (env : Env) (p : Page) :
    (gameManagerTimeout interval env p).thrown = none := by
  unfold gameManagerTimeout
  split <;> rfl

theorem settle_of_not_thrown (c : Completion) (h : c.thrown = none) : c.settle = c.page := by
  simp [Completion.settle, h]

theorem tick_of_armed (p₀ : Page) (env : Env) (hfound : p₀.fixes.gameManagerFound = false)
    (hfresh : ∀ t ∈ p₀.timers, t.handle < p₀.nextHandle) :
    step (.timer p₀.nextHandle) env (fixGameManagerInitialization p₀)
      = (checkGameManager p₀.nextHandle env (fixGameManagerInitialization p₀)).page := by
  simp only [step]
  rw [fixGameManagerInitialization_timers p₀ hfound,
    find_armed_first p₀.timers p₀.nextHandle _ _ hfresh rfl]
  simp only [fire, runTask, if_true]
  exact settle_of_not_thrown _ (checkGameManager_thrown _ _ _)

theorem timeout_of_armed (p₀ : Page) (env : Env) (hfound : p₀.fixes.gameManagerFound = false)
    (hfresh : ∀ t ∈ p₀.timers, t.handle < p₀.nextHandle) :
    step (.timer (p₀.nextHandle + 1)) env (fixGameManagerInitialization p₀)
      = (gameManagerTimeout p₀.nextHandle env
          ((fixGameManagerInitialization p₀).clearInterval (p₀.nextHandle + 1))).page := by
  simp only [step]
  rw [fixGameManagerInitialization_timers p₀ hfound,
    find_armed_second p₀.timers p₀.nextHandle _ _ hfresh rfl rfl]
  simp only [fire, runTask]
  exact settle_of_not_thrown _ (gameManagerTimeout_thrown _ _ _)

theorem settled_clearInterval {n : Nat} {q : Page} (h : Settled n q) (handle : Nat) :
    Settled n (q.clearInterval handle) := by
  refine ⟨h.found, ?_, ?_⟩
  · intro t ht
    simp only [Page.clearInterval, List.mem_filter] at ht
    exact h.cleared t ht.1
  · intro t ht
    simp only [Page.clearInterval, List.mem_filter] at ht
    exact h.timeout t ht.1

theorem settled_step {n : Nat} {q : Page} (h : Settled n q) (ev : Event) (env : Env)
    (hev : ev = Event.timer n ∨ ev = Event.timer (n + 1)) :
    step ev env q = q ∨ step ev env q = q.clearInterval (n + 1) := by
  rcases hev with hev | hev
  · left
    subst hev
    simp only [step]
    rw [find_none_of_cleared q.timers n h.cleared]
  · subst hev
    simp only [step]
    cases hfind : q.timers.find? (fun t => t.handle == n + 1) with
    | none => left; rfl
    | some t =>
      right
      have hmem : t ∈ q.timers := List.mem_of_find?_eq_some hfind
      have hhandle : t.handle = n + 1 := by
        have := List.find?_some hfind
        simpa using this
      obtain ⟨htask, hrep⟩ := h.timeout t hmem hhandle
      have hfound : (q.clearInterval (n + 1)).fixes.gameManagerFound = true := h.found
      simp [fire, hrep, htask, runTask, hhandle, gameManagerTimeout, hfound, Completion.settle]

theorem settled_run {n : Nat} (events : List (Event × Env)) :
    ∀ {q : Page}, Settled n q → OwnTimers n events →
      Settled n (run q events) ∧ (run q events).trace = q.trace ∧
      (run q events).gameManager = q.gameManager ∧ (run q events).fixes = q.fixes := by
  induction events with
  | nil => intro q h _; exact ⟨h, rfl, rfl, rfl⟩
  | cons e rest ih =>
    intro q h hown
    obtain ⟨ev, env⟩ := e
    have hev := hown (ev, env) (List.mem_cons_self _ _)
    have hrest : OwnTimers n rest := fun x hx => hown x (List.mem_cons_of_mem _ hx)
    simp only [run]
    rcases settled_step h ev env hev with hstep | hstep
    · rw [hstep]; exact ih h hrest
    · rw [hstep]
      have := ih (settled_clearInterval h (n + 1)) hrest
      exact this

theorem createGameManagerFallback_trace (env : Env) (p : Page) :
    (createGameManagerFallback env p).trace
      = p.trace ++ [.enter .createGameManagerFallback,
          .dispatchEvent "gameManagerEvent" "gameReady"] := by
  simp [createGameManagerFallback, Initialize, triggerEvent, Page.record]

theorem createGameManagerFallback_ready (env : Env) (p : Page) :
    (createGameManagerFallback env p).gameManager
      = some { isInitialized := true, gameState := "ready", playerData := playerData env.search } :=
  rfl

theorem settled_of_timers (p₀ q : Page) (hfound₀ : p₀.fixes.gameManagerFound = false)
    (hfresh : ∀ t ∈ p₀.timers, t.handle < p₀.nextHandle)
    (hfound : q.fixes.gameManagerFound = true)
    (hsub : ∀ t ∈ q.timers,
      t ∈ (fixGameManagerInitialization p₀).timers ∧ t.handle ≠ p₀.nextHandle) :
    Settled p₀.nextHandle q := by
  refine ⟨hfound, fun t ht => (hsub t ht).2, ?_⟩
  intro t ht hhandle
  have hmem := (hsub t ht).1
  rw [fixGameManagerInitialization_timers p₀ hfound₀] at hmem
  simp only [List.mem_append, List.mem_cons, List.mem_singleton, List.not_mem_nil,
    or_false] at hmem
  rcases hmem with hold | hI | hT
  · have := hfresh t hold
    omega
  · subst hI
    simp at hhandle
  · subst hT
    exact ⟨rfl, rfl⟩

theorem armed_step (p₀ : Page) (ev : Event) (env : Env)
    (hfound : p₀.fixes.gameManagerFound = false)
    (hfresh : ∀ t ∈ p₀.timers, t.handle < p₀.nextHandle)
    (hev : ev = Event.timer p₀.nextHandle ∨ ev = Event.timer (p₀.nextHandle + 1)) :
    step ev env (fixGameManagerInitialization p₀) = fixGameManagerInitialization p₀ ∨
    Settled p₀.nextHandle (step ev env (fixGameManagerInitialization p₀)) := by
  rcases hev with hev | hev
  · subst hev
    rw [tick_of_armed p₀ env hfound hfresh]
    unfold checkGameManager
    split
    · left; rfl
    · right
      split
      · apply settled_of_timers p₀ _ hfound hfresh rfl
        intro t ht
        simp only [Page.clearInterval, List.mem_filter] at ht
        exact ⟨ht.1, by simpa using ht.2⟩
      · apply settled_of_timers p₀ _ hfound hfresh rfl
        intro t ht
        simp only [Page.clearInterval, List.mem_filter] at ht
        exact ⟨ht.1, by simpa using ht.2⟩
  · subst hev
    right
    rw [timeout_of_armed p₀ env hfound hfresh]
    have hnot : ((fixGameManagerInitialization p₀).clearInterval
        (p₀.nextHandle + 1)).fixes.gameManagerFound = false := by
      simp [fixGameManagerInitialization, hfound, Page.clearInterval, Page.setTimeout,
        Page.setInterval, Page.record]
    simp only [gameManagerTimeout, hnot, consoleError, call_timeout_message]
    apply settled_of_timers p₀ _ hfound hfresh rfl
    intro t ht
    have ht' : t ∈ (((fixGameManagerInitialization p₀).clearInterval
        (p₀.nextHandle + 1)).clearInterval p₀.nextHandle).timers := ht
    simp only [Page.clearInterval, List.mem_filter] at ht'
    exact ⟨ht'.1.1, by simpa using ht'.2⟩

theorem live_run_unchanged (p₀ : Page) (hfound : p₀.fixes.gameManagerFound = false)
    (hfresh : ∀ t ∈ p₀.timers, t.handle < p₀.nextHandle) (pre : List (Event × Env)) :
    OwnTimers p₀.nextHandle pre →
    (∃ t ∈ (run (fixGameManagerInitialization p₀) pre).timers, t.handle = p₀.nextHandle) →
    run (fixGameManagerInitialization p₀) pre = fixGameManagerInitialization p₀ := by
  induction pre with
  | nil => intro _ _; rfl
  | cons e rest ih =>
    intro hown hlive
    obtain ⟨ev, env⟩ := e
    have hev := hown (ev, env) (List.mem_cons_self _ _)
    have hrest : OwnTimers p₀.nextHandle rest := fun x hx => hown x (List.mem_cons_of_mem _ hx)
    simp only [run] at hlive ⊢
    rcases armed_step p₀ ev env hfound hfresh hev with hstep | hstep
    · rw [hstep] at hlive ⊢
      exact ih hrest hlive
    · obtain ⟨t, ht, hhandle⟩ := hlive
      exact absurd hhandle ((settled_run rest hstep hrest).1.cleared t ht)

theorem run_append (xs ys : List (Event × Env)) :
    ∀ q : Page, run q (xs ++ ys) = run (run q xs) ys := by
  induction xs with
  | nil => intro q; rfl
  | cons x rest ih =>
    intro q
    obtain ⟨ev, en⟩ := x
    exact ih (step ev en q)

/-- C5: take one run of `fixGameManagerInitialization` started with `gameManagerFound`
unset, and any order of firings of its poll interval and its 30000 ms timeout in which some
poll tick that really happens (the interval is still live) finds the runtime handle present
with `SendMessage` throwing. Over the whole run `createGameManagerFallback` is executed
exactly once, the interval is cleared, and afterwards `window.GameManager.gameState` is
`'ready'` and `gameManagerFound` is set. The run starts on a page whose live timers have
handles below the next handle, as on every reachable page. -/
theorem fallback_once_when_sendMessage_throws (p₀ : Page) (pre post : List (Event × Env))
    (env : Env) (thrown : String)
    (hfound : p₀.fixes.gameManagerFound = false)
    (hfresh : ∀ t ∈ p₀.timers, t.handle < p₀.nextHandle)
    (hpre : OwnTimers p₀.nextHandle pre) (hpost : OwnTimers p₀.nextHandle post)
    (hlive : ∃ t ∈ (run (fixGameManagerInitialization p₀) pre).timers,
      t.handle = p₀.nextHandle)
    (hthrows : env.unityInstance = some { sendMessage := .error thrown }) :
    (run (fixGameManagerInitialization p₀)
        (pre ++ (Event.timer p₀.nextHandle, env) :: post)).trace.count
        (.enter .createGameManagerFallback)
      = p₀.trace.count (.enter .createGameManagerFallback) + 1 ∧
    (∀ t ∈ (run (fixGameManagerInitialization p₀)
        (pre ++ (Event.timer p₀.nextHandle, env) :: post)).timers,
      t.handle ≠ p₀.nextHandle) ∧
    (run (fixGameManagerInitialization p₀)
        (pre ++ (Event.timer p₀.nextHandle, env) :: post)).gameManager.map
        (fun g => g.gameState) = some "ready" ∧
    (run (fixGameManagerInitialization p₀)
        (pre ++ (Event.timer p₀.nextHandle, env) :: post)).fixes.gameManagerFound = true := by
  have hrun : run (fixGameManagerInitialization p₀)
      (pre ++ (Event.timer p₀.nextHandle, env) :: post)
      = run (step (.timer p₀.nextHandle) env (fixGameManagerInitialization p₀)) post := by
    rw [run_append, live_run_unchanged p₀ hfound hfresh pre hpre hlive]
    rfl
  have htick : step (.timer p₀.nextHandle) env (fixGameManagerInitialization p₀)
      = (createGameManagerFallback env
          ((fixGameManagerInitialization p₀).record
            (.sendMessage "GameManager" "Initialize"))).clearInterval p₀.nextHandle := by
    rw [tick_of_armed p₀ env hfound hfresh]
    simp [checkGameManager, hthrows]
  have hsettled : Settled p₀.nextHandle
      (step (.timer p₀.nextHandle) env (fixGameManagerInitialization p₀)) := by
    rcases armed_step p₀ (.timer p₀.nextHandle) env hfound hfresh (Or.inl rfl) with h | h
    · have hf : (step (.timer p₀.nextHandle) env
          (fixGameManagerInitialization p₀)).fixes.gameManagerFound = true := by
        rw [htick]; rfl
      rw [h] at hf
      have hnot : (fixGameManagerInitialization p₀).fixes.gameManagerFound = false := by
        simp [fixGameManagerInitialization, hfound, Page.setTimeout, Page.setInterval,
          Page.record]
      rw [hnot] at hf
      cases hf
    · exact h
  obtain ⟨hset, htrace, hgm, hfixes⟩ := settled_run post hsettled hpost
  rw [hrun]
  refine ⟨?_, hset.cleared, ?_, ?_⟩
  · rw [htrace, htick]
    simp only [clearInterval_trace, createGameManagerFallback_trace, record_trace,
      fixGameManagerInitialization_trace]
    simp [List.count_append, List.count_cons]
  · rw [hgm, htick]
    rfl
  · rw [hfixes, htick]
    rfl

/-- C5 on the page as loaded: the first tick finds no runtime handle, the second finds it
and `SendMessage` throws, then the timeout fires. -/
theorem fallback_once_when_sendMessage_throws_witness :
    Page.initial.fixes.gameManagerFound = false ∧
    (∃ t ∈ (run (fixGameManagerInitialization Page.initial)
        [(Event.timer 1, Env.quiet)]).timers, t.handle = Page.initial.nextHandle) ∧
    (run (fixGameManagerInitialization Page.initial)
        ([(Event.timer 1, Env.quiet)] ++
          (Event.timer Page.initial.nextHandle, Env.noGameManager) ::
            [(Event.timer 2, Env.quiet)])).trace.count
        (.enter .createGameManagerFallback) = 1 :=
  ⟨rfl, by decide,
    (fallback_once_when_sendMessage_throws Page.initial [(Event.timer 1, Env.quiet)]
      [(Event.timer 2, Env.quiet)] Env.noGameManager "GameManager not found" rfl
      (by decide) (by decide) (by decide) (by decide) rfl).1⟩

/-- C6: take one run of `fixGameManagerInitialization` started with `gameManagerFound`
unset whose first firing is the poll tick (due at 1000 ms, the timeout at 30000 ms), with
the runtime handle present and `SendMessage` returning. Whatever firings of the run's two
timers follow, `gameManagerFound` is set, the interval is cleared, `SendMessage` was called
once, and `createGameManagerFallback` was never executed: `window.GameManager` is what it
was before the run. The run starts on a page whose live timers have handles below the
next handle, as on every reachable page. -/
theorem no_fallback_when_sendMessage_returns (p₀ : Page) (env : Env)
    (later : List (Event × Env))
    (hfound : p₀.fixes.gameManagerFound = false)
    (hfresh : ∀ t ∈ p₀.timers, t.handle < p₀.nextHandle)
    (hlater : OwnTimers p₀.nextHandle later)
    (hreturns : env.unityInstance = some { sendMessage := .ok () }) :
    (run (fixGameManagerInitialization p₀)
        ((Event.timer p₀.nextHandle, env) :: later)).fixes.gameManagerFound = true ∧
    (∀ t ∈ (run (fixGameManagerInitialization p₀)
        ((Event.timer p₀.nextHandle, env) :: later)).timers, t.handle ≠ p₀.nextHandle) ∧
    (run (fixGameManagerInitialization p₀)
        ((Event.timer p₀.nextHandle, env) :: later)).trace.count
        (.sendMessage "GameManager" "Initialize")
      = p₀.trace.count (.sendMessage "GameManager" "Initialize") + 1 ∧
    (run (fixGameManagerInitialization p₀)
        ((Event.timer p₀.nextHandle, env) :: later)).trace.count
        (.enter .createGameManagerFallback)
      = p₀.trace.count (.enter .createGameManagerFallback) ∧
    (run (fixGameManagerInitialization p₀)
        ((Event.timer p₀.nextHandle, env) :: later)).gameManager = p₀.gameManager := by
  have htick : step (.timer p₀.nextHandle) env (fixGameManagerInitialization p₀)
      = { (fixGameManagerInitialization p₀).record
            (.sendMessage "GameManager" "Initialize") with
          fixes := { (fixGameManagerInitialization p₀).fixes with
            gameManagerFound := true } }.clearInterval p₀.nextHandle := by
    rw [tick_of_armed p₀ env hfound hfresh]
    simp [checkGameManager, hreturns]
  have hsettled : Settled p₀.nextHandle
      (step (.timer p₀.nextHandle) env (fixGameManagerInitialization p₀)) := by
    rcases armed_step p₀ (.timer p₀.nextHandle) env hfound hfresh (Or.inl rfl) with h | h
    · have hf : (step (.timer p₀.nextHandle) env
          (fixGameManagerInitialization p₀)).fixes.gameManagerFound = true := by
        rw [htick]; rfl
      rw [h] at hf
      have hnot : (fixGameManagerInitialization p₀).fixes.gameManagerFound = false := by
        simp [fixGameManagerInitialization, hfound, Page.setTimeout, Page.setInterval,
          Page.record]
      rw [hnot] at hf
      cases hf
    · exact h
  obtain ⟨hset, htrace, hgm, hfixes⟩ := settled_run later hsettled hlater
  simp only [run]
  refine ⟨?_, hset.cleared, ?_, ?_, ?_⟩
  · rw [hfixes, htick]
    rfl
  · rw [htrace, htick]
    simp only [clearInterval_trace, record_trace, fixGameManagerInitialization_trace]
    simp [List.count_append, List.count_cons]
  · rw [htrace, htick]
    simp only [clearInterval_trace, record_trace, fixGameManagerInitialization_trace]
    simp [List.count_append, List.count_cons]
  · rw [hgm, htick]
    simp [fixGameManagerInitialization, hfound, Page.clearInterval, Page.setTimeout,
      Page.setInterval, Page.record]

/-- C6 on the page as loaded: the first tick succeeds, then the interval's handle and the
timeout fire. -/
theorem no_fallback_when_sendMessage_returns_witness :
    Page.initial.fixes.gameManagerFound = false ∧
    (run (fixGameManagerInitialization Page.initial)
        ((Event.timer Page.initial.nextHandle, Env.unityReady) ::
          [(Event.timer 1, Env.noGameManager), (Event.timer 2, Env.noGameManager)])).gameManager
      = Page.initial.gameManager :=
  ⟨rfl,
    (no_fallback_when_sendMessage_returns Page.initial Env.unityReady
      [(Event.timer 1, Env.noGameManager), (Event.timer 2, Env.noGameManager)] rfl
      (by decide) (by decide) rfl).2.2.2.2⟩

/-! ## C7: the player data of the fallback object -/

/-- C7 as stated fails at `?balance=12abc`: the parameter is present and is not a
well-formed number, yet the balance is 12 and not 0, because `parseFloat` reads the longest
numeric prefix. It also fails at `?user_name=`: the parameter is present with the empty
value, and the username is `'Player'`. -/
theorem playerData_reads_numeric_prefix :
    URLSearchParams.get (URLSearchParams "?balance=12abc") "balance" = some "12abc" ∧
    isDecimalLiteral "12abc" = false ∧
    (playerData "?balance=12abc").balance = .finite false 3 2 ∧
    (playerData "?balance=12abc").balance.value = some 12 ∧
    (playerData "?balance=12abc").balance ≠ JsNumber.zero ∧
    URLSearchParams.get (URLSearchParams "?user_name=") "user_name" = some "" ∧
    (playerData "?user_name=").username = "Player" := by
  have hbalance : (playerData "?balance=12abc").balance = .finite false 3 2 := by decide
  refine ⟨by decide, by decide, hbalance, ?_, by decide, by decide, by decide⟩
  rw [hbalance]
  simp only [JsNumber.value]
  norm_num

theorem orElse_zero_not_nan (x : JsNumber) : (x.orElse JsNumber.zero).isNaN = false := by
  cases x with
  | nan => rfl
  | infinity negative => rfl
  | finite negative mantissa exponent =>
    unfold JsNumber.orElse
    split <;> rfl

theorem packBinary64_ne_nan (negative : Bool) (m : Nat) (q : Int) :
    packBinary64 negative m q ≠ .nan := by
  unfold packBinary64
  split
  · intro h; cases h
  · split <;> (intro h; cases h)

theorem decimalToNumber_ne_nan (negative : Bool) (mantissa : Nat) (exponent : Int) :
    decimalToNumber negative mantissa exponent ≠ .nan := by
  unfold decimalToNumber roundBinary64
  split
  · split
    · intro h; cases h
    · exact packBinary64_ne_nan _ _ _
  · split
    · intro h; cases h
    · exact packBinary64_ne_nan _ _ _

theorem parseUnsigned_of_literal (negative : Bool) (body : List Char)
    (h : isUnsignedLiteral body = true) : parseUnsigned negative body ≠ .nan := by
  unfold isUnsignedLiteral at h
  unfold parseUnsigned
  split at h
  · rename_i heq
    have hbody : body = "Infinity".data := by simpa using heq
    subst hbody
    have hself : "Infinity".data.isPrefixOf "Infinity".data = true := by decide
    simp only [hself, if_true]
    intro hc
    cases hc
  · split
    · intro hc; cases hc
    · simp only [Bool.and_eq_true, Bool.not_eq_true'] at h
      simp only [h.1]
      exact decimalToNumber_ne_nan _ _ _

theorem whiteSpace_not_literal (c : Char) (cs : List Char) (hc : isStrWhiteSpace c = true) :
    isUnsignedLiteral (c :: cs) = false ∧ c ≠ '-' ∧ c ≠ '+' := by
  have hn : c.toNat ≠ 45 ∧ c.toNat ≠ 43 ∧ c.toNat ≠ 46 ∧ c.toNat ≠ 73 ∧
      ¬ (48 ≤ c.toNat ∧ c.toNat ≤ 57) := by
    simp only [isStrWhiteSpace, Bool.or_eq_true, Bool.and_eq_true, beq_iff_eq,
      decide_eq_true_eq] at hc
    omega
  have hminus : c ≠ '-' := fun h => hn.1 (by rw [h]; rfl)
  have hplus : c ≠ '+' := fun h => hn.2.1 (by rw [h]; rfl)
  have hdot : c ≠ '.' := fun h => hn.2.2.1 (by rw [h]; rfl)
  have hI : c ≠ 'I' := fun h => hn.2.2.2.1 (by rw [h]; rfl)
  have hdigit : isDecimalDigit c = false := by
    simp only [isDecimalDigit, Bool.and_eq_false_iff, decide_eq_false_iff_not]
    omega
  refine ⟨?_, hminus, hplus⟩
  have hInf : ((c :: cs) == "Infinity".data) = false := by
    rw [beq_eq_false_iff_ne]
    intro h
    have : c = 'I' := by
      have := congrArg List.head? h
      simpa using this
    exact hI this
  have htake : takeDigits (c :: cs) = ([], c :: cs) := by simp [takeDigits, hdigit]
  unfold isUnsignedLiteral
  rw [hInf, htake]
  have hmatch : (match (c :: cs) with
      | '.' :: r => takeDigits r
      | r => ([], r)) = ([], c :: cs) := by
    split
    · rename_i r heq
      cases heq
      exact absurd rfl hdot
    · rfl
  simp [hmatch]

theorem parseFloat_of_literal (v : String) (h : isDecimalLiteral v = true) :
    parseFloat v ≠ .nan := by
  obtain ⟨data⟩ := v
  unfold isDecimalLiteral at h
  unfold parseFloat
  cases data with
  | nil => simp [isUnsignedLiteral, takeDigits] at h
  | cons c cs =>
    by_cases hws : isStrWhiteSpace c = true
    · obtain ⟨hnot, hminus, hplus⟩ := whiteSpace_not_literal c cs hws
      exfalso
      simp only at h
      split at h
      · rename_i r heq
        cases heq
        exact hminus rfl
      · rename_i r heq
        cases heq
        exact hplus rfl
      · rw [hnot] at h
        cases h
    · have hdrop : List.dropWhile isStrWhiteSpace (c :: cs) = c :: cs := by
        simp [List.dropWhile, hws]
      simp only [hdrop]
      simp only at h
      split at h
      · exact parseUnsigned_of_literal _ _ h
      · exact parseUnsigned_of_literal _ _ h
      · exact parseUnsigned_of_literal _ _ h

theorem orElse_zero_value (x : JsNumber) (h : x ≠ .nan) :
    (x.orElse JsNumber.zero).value = x.value := by
  cases x with
  | nan => exact absurd rfl h
  | infinity negative => rfl
  | finite negative mantissa exponent =>
    unfold JsNumber.orElse
    split
    · rfl
    · rename_i hfalsy
      have hm : mantissa = 0 := by simpa [JsNumber.truthy] using hfalsy
      subst hm
      simp [JsNumber.value, JsNumber.zero]

theorem takeDigits_append (ds rest : List Char) (hds : ∀ c ∈ ds, isDecimalDigit c = true)
    (hrest : ∀ c r, rest = c :: r → isDecimalDigit c = false) :
    takeDigits (ds ++ rest) = (ds, rest) := by
  induction ds with
  | nil =>
    cases rest with
    | nil => rfl
    | cons c r => simp [takeDigits, hrest c r rfl]
  | cons d ds ih =>
    have hd : isDecimalDigit d = true := hds d (List.mem_cons_self _ _)
    have ih' := ih (fun c hc => hds c (List.mem_cons_of_mem _ hc))
    simp [takeDigits, hd, ih']

theorem takeDigits_digits (ds : List Char) (hds : ∀ c ∈ ds, isDecimalDigit c = true) :
    takeDigits ds = (ds, []) := by
  have h := takeDigits_append ds [] hds (fun c r h => by cases h)
  simpa using h

theorem exponentText_head (l : DecimalLiteral) :
    ∀ c r, l.exponentText = c :: r → isDecimalDigit c = false ∧ c ≠ '.' := by
  intro c r h
  unfold DecimalLiteral.exponentText at h
  cases he : l.exponent with
  | none => rw [he] at h; cases h
  | some e =>
    rw [he] at h
    simp only [ExponentText.text, List.cons.injEq] at h
    obtain ⟨hc, -⟩ := h
    cases hu : e.upper <;> simp [hu] at hc <;> subst hc <;> decide

theorem fractionText_head (l : DecimalLiteral) :
    ∀ c r, l.fractionText ++ l.exponentText = c :: r → isDecimalDigit c = false := by
  intro c r h
  unfold DecimalLiteral.fractionText at h
  cases hf : l.fraction with
  | none =>
    rw [hf] at h
    exact (exponentText_head l c r (by simpa using h)).1
  | some f =>
    rw [hf] at h
    simp only [List.cons_append, List.cons.injEq] at h
    obtain ⟨hc, -⟩ := h
    subst hc
    decide

theorem body_takeDigits (l : DecimalLiteral) (h : l.WellFormed) :
    takeDigits l.body = (l.intDigits, l.fractionText ++ l.exponentText) :=
  takeDigits_append _ _ h.1 (fractionText_head l)

theorem body_fraction (l : DecimalLiteral) (h : l.WellFormed) :
    (match l.fractionText ++ l.exponentText with
      | '.' :: r => takeDigits r
      | r => ([], r)) = (l.fracDigits, l.exponentText) := by
  cases hf : l.fraction with
  | none =>
    have hfrac : l.fractionText = [] := by simp [DecimalLiteral.fractionText, hf]
    have hdig : l.fracDigits = [] := by simp [DecimalLiteral.fracDigits, hf]
    rw [hfrac, hdig]
    simp only [List.nil_append]
    split
    · rename_i r heq
      exact absurd rfl (exponentText_head l '.' r heq).2
    · rfl
  | some f =>
    have hfrac : l.fractionText = '.' :: f := by simp [DecimalLiteral.fractionText, hf]
    have hdig : l.fracDigits = f := by simp [DecimalLiteral.fracDigits, hf]
    rw [hfrac, hdig]
    simp only [List.cons_append]
    exact takeDigits_append f _ (by rw [← hdig]; exact h.2.1)
      (fun c r hc => (exponentText_head l c r hc).1)

theorem digit_not_sign (c : Char) (h : isDecimalDigit c = true) :
    c ≠ '-' ∧ c ≠ '+' ∧ c ≠ 'I' ∧ isStrWhiteSpace c = false := by
  have hn : 48 ≤ c.toNat ∧ c.toNat ≤ 57 := by
    simpa [isDecimalDigit] using h
  refine ⟨?_, ?_, ?_, ?_⟩
  · intro hc; subst hc; revert hn; decide
  · intro hc; subst hc; revert hn; decide
  · intro hc; subst hc; revert hn; decide
  · simp only [isStrWhiteSpace, Bool.or_eq_false_iff, Bool.and_eq_false_iff, beq_eq_false_iff_ne,
      decide_eq_false_iff_not]
    omega

theorem exponentText_value (l : DecimalLiteral) (h : l.WellFormed) :
    exponentPart l.exponentText = l.exponentValue ∧ isExponentOrEmpty l.exponentText = true := by
  unfold DecimalLiteral.exponentText DecimalLiteral.exponentValue
  cases he : l.exponent with
  | none => exact ⟨rfl, rfl⟩
  | some e =>
    obtain ⟨hdigits, hne⟩ := h.2.2.2 e he
    have htake := takeDigits_digits e.digits hdigits
    have hempty : e.digits.isEmpty = false := by
      cases hd : e.digits with
      | nil => exact absurd hd hne
      | cons d ds => rfl
    have hind : ((if e.upper then 'E' else 'e') == 'e' || (if e.upper then 'E' else 'e') == 'E')
        = true := by
      cases e.upper <;> decide
    simp only [ExponentText.text, exponentPart, isExponentOrEmpty, hind, if_true, Bool.true_and]
    cases hs : e.sign with
    | none =>
      simp only [signText, List.nil_append, ExponentText.value, hs]
      cases hd : e.digits with
      | nil => exact absurd hd hne
      | cons d ds =>
        have hdd : isDecimalDigit d = true := hdigits d (by rw [hd]; exact List.mem_cons_self _ _)
        obtain ⟨hminus, hplus, -, -⟩ := digit_not_sign d hdd
        rw [hd] at htake hempty
        constructor
        · split
          · rename_i r heq
            cases heq
            exact absurd rfl hminus
          · rename_i r heq
            cases heq
            exact absurd rfl hplus
          · simp [htake]
        · split
          · rename_i r heq
            cases heq
            exact absurd rfl hminus
          · rename_i r heq
            cases heq
            exact absurd rfl hplus
          · simp [isDigits, htake]
    | some negative =>
      cases negative with
      | true =>
        simp [signText, ExponentText.value, hs, htake, hempty, isDigits]
      | false =>
        simp [signText, ExponentText.value, hs, htake, hempty, isDigits]

theorem body_head (l : DecimalLiteral) (h : l.WellFormed) :
    ∃ c r, l.body = c :: r ∧ (isDecimalDigit c = true ∨ c = '.') := by
  unfold DecimalLiteral.body
  cases hi : l.intDigits with
  | cons d ds =>
    exact ⟨d, _, rfl, Or.inl (h.1 d (by rw [hi]; exact List.mem_cons_self _ _))⟩
  | nil =>
    have hfrac : l.fracDigits ≠ [] := by
      rcases h.2.2.1 with h1 | h1
      · exact absurd hi h1
      · exact h1
    cases hf : l.fraction with
    | none => simp [DecimalLiteral.fracDigits, hf] at hfrac
    | some f =>
      exact ⟨'.', f ++ l.exponentText, by simp [DecimalLiteral.fractionText, hf], Or.inr rfl⟩

theorem body_not_infinity (l : DecimalLiteral) (h : l.WellFormed) :
    "Infinity".data.isPrefixOf l.body = false ∧ (l.body == "Infinity".data) = false := by
  obtain ⟨c, r, hbody, hc⟩ := body_head l h
  have hI : c ≠ 'I' := by
    rcases hc with hc | hc
    · exact (digit_not_sign c hc).2.2.1
    · subst hc; decide
  rw [hbody]
  constructor
  · have : ('I' == c) = false := by
      rw [beq_eq_false_iff_ne]
      exact fun h => hI h.symm
    show List.isPrefixOf ('I' :: "nfinity".data) (c :: r) = false
    simp [List.isPrefixOf, this]
  · rw [beq_eq_false_iff_ne]
    intro heq
    have := congrArg List.head? heq
    simp at this
    exact hI this

theorem body_not_empty (l : DecimalLiteral) (h : l.WellFormed) :
    (l.intDigits.isEmpty && l.fracDigits.isEmpty) = false := by
  rcases h.2.2.1 with h1 | h1
  · cases hd : l.intDigits with
    | nil => exact absurd hd h1
    | cons d ds => rfl
  · cases hd : l.fracDigits with
    | nil => exact absurd hd h1
    | cons d ds => simp

theorem parseUnsigned_body (negative : Bool) (l : DecimalLiteral) (h : l.WellFormed) :
    parseUnsigned negative l.body
      = decimalToNumber negative (digitsValue (l.intDigits ++ l.fracDigits))
          (l.exponentValue - (l.fracDigits.length : Int)) := by
  unfold parseUnsigned
  simp only [(body_not_infinity l h).1, body_takeDigits l h, body_fraction l h,
    body_not_empty l h, (exponentText_value l h).1]
  simp

theorem isUnsignedLiteral_body (l : DecimalLiteral) (h : l.WellFormed) :
    isUnsignedLiteral l.body = true := by
  unfold isUnsignedLiteral
  simp only [(body_not_infinity l h).2, body_takeDigits l h, body_fraction l h,
    body_not_empty l h, (exponentText_value l h).2]
  simp

theorem text_cases (l : DecimalLiteral) (h : l.WellFormed) :
    List.dropWhile isStrWhiteSpace l.text = l.text ∧
    (l.sign = none → ∀ r, l.text ≠ '-' :: r ∧ l.text ≠ '+' :: r) := by
  obtain ⟨c, r, hbody, hc⟩ := body_head l h
  have hws : isStrWhiteSpace c = false := by
    rcases hc with hc | hc
    · exact (digit_not_sign c hc).2.2.2
    · subst hc; decide
  constructor
  · unfold DecimalLiteral.text
    cases hs : l.sign with
    | none => simp [signText, hbody, List.dropWhile, hws]
    | some negative =>
      have hminus : isStrWhiteSpace '-' = false := by decide
      have hplus : isStrWhiteSpace '+' = false := by decide
      cases negative <;> simp [signText, List.dropWhile, hminus, hplus]
  · intro hs r'
    unfold DecimalLiteral.text
    rw [hs, hbody]
    simp only [signText, List.nil_append, ne_eq, List.cons.injEq, not_and]
    rcases hc with hc | hc
    · exact ⟨fun h1 => absurd h1 (digit_not_sign c hc).1,
        fun h1 => absurd h1 (digit_not_sign c hc).2.1⟩
    · subst hc
      exact ⟨fun h1 => absurd h1 (by decide), fun h1 => absurd h1 (by decide)⟩

theorem parseFloat_text (l : DecimalLiteral) (h : l.WellFormed) :
    parseFloat (String.mk l.text) = l.number ∧ isDecimalLiteral (String.mk l.text) = true := by
  obtain ⟨hdrop, hnosign⟩ := text_cases l h
  unfold parseFloat isDecimalLiteral DecimalLiteral.number
  simp only [hdrop]
  cases hs : l.sign with
  | none =>
    have htext : l.text = l.body := by simp [DecimalLiteral.text, hs, signText]
    have hno := hnosign hs
    rw [htext] at hno ⊢
    constructor
    · split
      · rename_i r heq
        exact absurd heq (hno r).1
      · rename_i r heq
        exact absurd heq (hno r).2
      · simpa using parseUnsigned_body false l h
    · split
      · rename_i r heq
        exact absurd heq (hno r).1
      · rename_i r heq
        exact absurd heq (hno r).2
      · exact isUnsignedLiteral_body l h
  | some negative =>
    cases negative with
    | true =>
      have htext : l.text = '-' :: l.body := by simp [DecimalLiteral.text, hs, signText]
      rw [htext]
      exact ⟨by simpa using parseUnsigned_body true l h, isUnsignedLiteral_body l h⟩
    | false =>
      have htext : l.text = '+' :: l.body := by simp [DecimalLiteral.text, hs, signText]
      rw [htext]
      exact ⟨by simpa using parseUnsigned_body false l h, isUnsignedLiteral_body l h⟩

set_option exponentiation.threshold 3000 in
theorem parseFloat_rounds :
    parseFloat "0.1" = .finite false 3602879701896397 (-55) ∧
    parseFloat "9007199254740993" = .finite false 1 53 ∧
    parseFloat "1e-400" = .finite false 0 0 ∧
    parseFloat "-1e-400" = .finite true 0 0 ∧
    parseFloat "1e400" = .infinity false ∧
    parseFloat "5e-324" = .finite false 1 (-1074) ∧
    parseFloat "2e-324" = .finite false 0 0 ∧
    parseFloat "1.7976931348623157e308" = .finite false 9007199254740991 971 ∧
    parseFloat "1.7976931348623159e308" = .infinity false ∧
    parseFloat "2.2250738585072014e-308" = .finite false 1 (-1022) := by
  decide

theorem balance_of_present (search v : String)
    (h : URLSearchParams.get (URLSearchParams search) "balance" = some v) :
    (playerData search).balance = (parseFloat v).orElse JsNumber.zero := by
  simp [playerData, h, toStringOrNull]

/-- C7, amended: for every query string `playerData` is built without an exception. The
username is the value of `user_name` when that parameter is present and not empty, and
`'Player'` otherwise. The balance is `parseFloat(value) || 0`: it is never `NaN`; it is 0
when `balance` is absent; when `balance` is present it is the number `parseFloat` reads from
the longest numeric prefix of the value if that number is neither `NaN` nor zero, and 0
if it is `NaN` (the value does not start with a number) or zero. A value that is a
well-formed number is read as a whole: `parseFloat` gives its numeric value, the nearest
double, and the balance has that value. `?user_name=Alice&balance=42.5` gives `Alice` and
42.5, `?balance=notanumber` gives 0, as do `?balance=0abc` and `?balance=0x1F`. -/
theorem playerData_defaults :
    (∀ search : String,
      (playerData search).username
        = match URLSearchParams.get (URLSearchParams search) "user_name" with
          | some v => if v = "" then "Player" else v
          | none => "Player") ∧
    (∀ search : String, (playerData search).balance.isNaN = false) ∧
    (∀ search : String, URLSearchParams.get (URLSearchParams search) "balance" = none →
      (playerData search).balance = JsNumber.zero) ∧
    (∀ (search v : String), URLSearchParams.get (URLSearchParams search) "balance" = some v →
      (parseFloat v).truthy = true → (playerData search).balance = parseFloat v) ∧
    (∀ (search v : String), URLSearchParams.get (URLSearchParams search) "balance" = some v →
      (parseFloat v).truthy = false → (playerData search).balance = JsNumber.zero) ∧
    (∀ (search v : String), URLSearchParams.get (URLSearchParams search) "balance" = some v →
      parseFloat v = .nan → (playerData search).balance = JsNumber.zero) ∧
    (∀ (search : String) (l : DecimalLiteral), l.WellFormed →
      URLSearchParams.get (URLSearchParams search) "balance" = some (String.mk l.text) →
      isDecimalLiteral (String.mk l.text) = true ∧
      parseFloat (String.mk l.text) = l.number ∧
      (playerData search).balance = l.number.orElse JsNumber.zero ∧
      (playerData search).balance.value = l.number.value) ∧
    (∀ (search v : String), URLSearchParams.get (URLSearchParams search) "balance" = some v →
      isDecimalLiteral v = true →
      parseFloat v ≠ .nan ∧ (playerData search).balance.value = (parseFloat v).value) ∧
    playerData "?user_name=Alice&balance=42.5"
      = { username := "Alice", balance := .finite false 85 (-1) } ∧
    (playerData "?user_name=Alice&balance=42.5").balance.value = some (85 / 2) ∧
    playerData "?balance=notanumber" = { username := "Player", balance := JsNumber.zero } ∧
    (playerData "?balance=0abc").balance = JsNumber.zero ∧
    (playerData "?balance=0x1F").balance = JsNumber.zero ∧
    (playerData "?balance=-0").balance = JsNumber.zero := by
  refine ⟨?_, ?_, ?_, ?_, ?_, ?_, ?_, ?_, by decide, ?_, by decide, by decide, by decide,
    by decide⟩
  · intro search
    simp only [playerData, stringOr]
    cases URLSearchParams.get (URLSearchParams search) "user_name" <;> rfl
  · intro search
    exact orElse_zero_not_nan _
  · intro search h
    simp only [playerData, h, toStringOrNull]
    decide
  · intro search v h htruthy
    rw [balance_of_present search v h]
    simp [JsNumber.orElse, htruthy]
  · intro search v h hfalsy
    rw [balance_of_present search v h]
    simp [JsNumber.orElse, hfalsy]
  · intro search v h hnan
    rw [balance_of_present search v h, hnan]
    rfl
  · intro search l hl h
    obtain ⟨hparse, hliteral⟩ := parseFloat_text l hl
    have hne : l.number ≠ .nan := decimalToNumber_ne_nan _ _ _
    refine ⟨hliteral, hparse, ?_, ?_⟩
    · rw [balance_of_present search _ h, hparse]
    · rw [balance_of_present search _ h, hparse]
      exact orElse_zero_value _ hne
  · intro search v h hliteral
    refine ⟨parseFloat_of_literal v hliteral, ?_⟩
    rw [balance_of_present search v h]
    exact orElse_zero_value _ (parseFloat_of_literal v hliteral)
  · have h : (playerData "?user_name=Alice&balance=42.5").balance = .finite false 85 (-1) := by
      decide
    rw [h]
    simp only [JsNumber.value]
    norm_num

/-- C7, amended, at `?balance=42.5`, whose value is the well-formed number 42.5: it is read
as a whole and the balance is its numeric value. -/
theorem playerData_defaults_witness :
    DecimalLiteral.sample.WellFormed ∧
    URLSearchParams.get (URLSearchParams "?balance=42.5") "balance"
      = some (String.mk DecimalLiteral.sample.text) ∧
    (playerData "?balance=42.5").balance = DecimalLiteral.sample.number.orElse JsNumber.zero :=
  have hwell : DecimalLiteral.sample.WellFormed :=
    ⟨by decide, by decide, Or.inl (by decide), fun e he => by cases he⟩
  ⟨hwell, by decide,
    (playerData_defaults.2.2.2.2.2.2.1 "?balance=42.5" DecimalLiteral.sample hwell
      (by decide)).2.2.1⟩

/-! ## C8, C9, C10: one tick of the connection monitor -/

theorem call_retries (args : List String) (env : Env) (logger : ErrorLogger) :
    ∀ p : Page, (logger.call args env p).fixes.connectionRetries = p.fixes.connectionRetries := by
  induction logger with
  | native => intro p; rfl
  | recovery orig ih =>
    intro p
    simp only [ErrorLogger.call]
    split
    · unfold fixPlayerLoopRecursion
      split <;> rfl
    · split
      · unfold fixGameManagerInitialization
        split <;> rfl
      · split
        · rfl
        · exact ih p

theorem call_trace (args : List String) (env : Env) (logger : ErrorLogger) :
    ∀ p : Page, ∃ e : Effect, (logger.call args env p).trace = p.trace ++ [e] ∧
      (e = .originalError args ∨ ∃ f, e = .enter f) := by
  induction logger with
  | native => intro p; exact ⟨_, rfl, Or.inl rfl⟩
  | recovery orig ih =>
    intro p
    simp only [ErrorLogger.call]
    split
    · exact ⟨_, fixPlayerLoopRecursion_trace env p, Or.inr ⟨_, rfl⟩⟩
    · split
      · exact ⟨_, fixGameManagerInitialization_trace p, Or.inr ⟨_, rfl⟩⟩
      · split
        · exact ⟨_, fixSmartFoxConnection_trace p, Or.inr ⟨_, rfl⟩⟩
        · exact ih p

theorem call_connect_count (args : List String) (env : Env) (logger : ErrorLogger) (p : Page)
    (host : String) (port : Nat) :
    (logger.call args env p).trace.count (.connect host port)
      = p.trace.count (.connect host port) := by
  obtain ⟨e, htrace, he⟩ := call_trace args env logger p
  rw [htrace]
  rcases he with he | ⟨f, he⟩ <;> subst he <;> simp [List.count_append, List.count_cons]

/-- C8 on the code: in a tick in which the session client is present, `isConnected()`
returns false and the counter is below `maxRetries`, `connect('gameserver.dlgame.online',
8443)` is called exactly once and no exception escapes; the counter is one higher
afterwards when `connect` returns, but it is left as it was when `connect` throws: the
increment of line 144 follows the call inside the `try` and is skipped. -/
theorem connect_counted_only_on_return (env : Env) (p : Page) (sfs : SFS2X)
    (hsfs : env.sfs2x = some sfs) (hdown : sfs.isConnected = .ok false)
    (hbelow : p.fixes.connectionRetries < p.fixes.maxRetries) :
    (connectionMonitor env p).page.trace.count (.connect "gameserver.dlgame.online" 8443)
      = p.trace.count (.connect "gameserver.dlgame.online" 8443) + 1 ∧
    (connectionMonitor env p).thrown = none ∧
    (∀ u, sfs.connect = .ok u →
      (connectionMonitor env p).page.fixes.connectionRetries
        = p.fixes.connectionRetries + 1) ∧
    (∀ e, sfs.connect = .error e →
      (connectionMonitor env p).page.fixes.connectionRetries = p.fixes.connectionRetries) := by
  cases hconnect : sfs.connect with
  | ok u =>
    simp [connectionMonitor, hsfs, hdown, hbelow, hconnect, List.count_append, List.count_cons]
  | error e =>
    simp only [connectionMonitor, hsfs, hdown, hbelow, hconnect, consoleError, and_self,
      if_true, call_retries, call_connect_count]
    simp [List.count_append, List.count_cons, Page.record]

/-- C8 at the failing input: the counter is 0, `connect` throws, and the counter is 0 after
the tick although one attempt was made. -/
theorem connect_counted_only_on_return_witness :
    Env.refusing.sfs2x
      = some { isConnected := .ok false, isConnectedAgain := .ok false
               connect := .error "Error: socket closed" } ∧
    Page.initial.fixes.connectionRetries < Page.initial.fixes.maxRetries ∧
    (connectionMonitor Env.refusing Page.initial).page.fixes.connectionRetries = 0 ∧
    (connectionMonitor Env.refusing Page.initial).page.trace.count
      (.connect "gameserver.dlgame.online" 8443) = 1 :=
  ⟨rfl, by decide,
    (connect_counted_only_on_return Env.refusing Page.initial _ rfl rfl (by decide)).2.2.2
      "Error: socket closed" rfl,
    (connect_counted_only_on_return Env.refusing Page.initial _ rfl rfl (by decide)).1⟩

/-- C9 on the code: when the session client is present and `isConnected()` throws at line
139, which is outside the `try` of lines 142-147, the exception escapes the poll tick of
Connection Recovery. Failures of the other collaborator calls are caught: a tick of the
Session Initializer never lets an exception out, and a tick of Connection Recovery in which
`isConnected()` returns lets none out whatever `connect` does. -/
theorem isConnected_failure_escapes (env : Env) (p : Page) (sfs : SFS2X) (e : String)
    (hsfs : env.sfs2x = some sfs) (hthrows : sfs.isConnected = .error e) :
    (connectionMonitor env p).thrown = some e ∧
    (connectionMonitor env p).settle.trace = p.trace ++ [.isConnected, .uncaught e] ∧
    (∀ (handle : Nat) (env₁ : Env) (p₁ : Page),
      (checkGameManager handle env₁ p₁).thrown = none) ∧
    (∀ (env₁ : Env) (p₁ : Page) (sfs₁ : SFS2X) (b b₁ : Bool), env₁.sfs2x = some sfs₁ →
      sfs₁.isConnected = .ok b → sfs₁.isConnectedAgain = .ok b₁ →
      (connectionMonitor env₁ p₁).thrown = none) := by
  refine ⟨?_, ?_, checkGameManager_thrown, ?_⟩
  · simp [connectionMonitor, hsfs, hthrows]
  · simp [connectionMonitor, hsfs, hthrows, Completion.settle]
  · intro env₁ p₁ sfs₁ b b₁ h₁ h₂ h₃
    simp only [connectionMonitor, h₁, h₂, h₃]
    split
    · split <;> rfl
    · split <;> rfl

/-- C9 at the failing input: during start-up the connection monitor gets handle 3; when it
fires while `isConnected()` throws, the exception is uncaught. -/
theorem isConnected_failure_escapes_witness :
    Env.faulty.sfs2x
      = some { isConnected := .error "TypeError: sfs.isConnected is not a function"
               isConnectedAgain := .error "TypeError: sfs.isConnected is not a function"
               connect := .ok () } ∧
    (connectionMonitor Env.faulty (fixSmartFoxConnection Page.beforeRecovery)).thrown
      = some "TypeError: sfs.isConnected is not a function" ∧
    (step (.timer 3) Env.faulty (fixSmartFoxConnection Page.beforeRecovery)).trace.count
      (.uncaught "TypeError: sfs.isConnected is not a function") = 1 :=
  ⟨rfl,
    (isConnected_failure_escapes Env.faulty (fixSmartFoxConnection Page.beforeRecovery) _ _ rfl
      rfl).1,
    by decide⟩

/-- C10: on every page the script can reach, whatever events led there and in whatever
order the ticks of any number of connection monitors ran, `connectionRetries` is at most
`maxRetries`, which is 5. One tick raises the counter by at most 1, and raises it only if
its first evaluation of `isConnected()` returned false; a tick for which `isConnected()`
returns true leaves the counter at 0, as does any tick whose evaluation at line 148
returns true. -/
theorem connectionRetries_bounded :
    (∀ p : Page, Reachable p →
      0 ≤ p.fixes.connectionRetries ∧ p.fixes.connectionRetries ≤ p.fixes.maxRetries ∧
      p.fixes.maxRetries = 5) ∧
    (∀ (env : Env) (p : Page),
      (connectionMonitor env p).page.fixes.connectionRetries ≤ p.fixes.connectionRetries + 1) ∧
    (∀ (env : Env) (p : Page),
      p.fixes.connectionRetries < (connectionMonitor env p).page.fixes.connectionRetries →
      ∃ sfs, env.sfs2x = some sfs ∧ sfs.isConnected = .ok false) ∧
    (∀ (env : Env) (p : Page) (sfs : SFS2X), env.sfs2x = some sfs →
      sfs.isConnected = .ok true → sfs.isConnectedAgain = .ok true →
      (connectionMonitor env p).page.fixes.connectionRetries = 0) ∧
    (∀ (env : Env) (p : Page) (sfs : SFS2X), env.sfs2x = some sfs →
      sfs.isConnected = .ok false → p.fixes.maxRetries ≤ p.fixes.connectionRetries →
      sfs.isConnectedAgain = .ok true →
      (connectionMonitor env p).page.fixes.connectionRetries = 0) := by
  refine ⟨?_, ?_, ?_, ?_, ?_⟩
  · intro p hp
    exact ⟨Nat.zero_le _, (reachable_inv hp).retries, (reachable_inv hp).budget⟩
  · intro env p
    unfold connectionMonitor
    split
    · exact Nat.le_succ _
    · split
      · exact Nat.le_succ _
      · split
        · split
          · exact Nat.le_refl _
          · simp only [consoleError, call_retries]
            exact Nat.le_succ _
        · split
          · exact Nat.le_succ _
          · split
            · exact Nat.zero_le _
            · exact Nat.le_succ _
  · intro env p hlt
    unfold connectionMonitor at hlt
    split at hlt
    · exact absurd hlt (Nat.lt_irrefl _)
    · rename_i sfs hsfs
      split at hlt
      · exact absurd hlt (Nat.lt_irrefl _)
      · rename_i connected hconnected
        split at hlt
        · rename_i hcond
          refine ⟨sfs, hsfs, ?_⟩
          rw [hconnected, hcond.1]
        · split at hlt
          · exact absurd hlt (Nat.lt_irrefl _)
          · split at hlt
            · exact absurd hlt (Nat.not_lt_zero _)
            · exact absurd hlt (Nat.lt_irrefl _)
  · intro env p sfs hsfs h₁ h₂
    simp [connectionMonitor, hsfs, h₁, h₂]
  · intro env p sfs hsfs h₁ hfull h₂
    have hnot : ¬ p.fixes.connectionRetries < p.fixes.maxRetries := Nat.not_lt.mpr hfull
    simp [connectionMonitor, hsfs, h₁, h₂, hnot]

/-- C10 after start-up, a request for a second poller, a tick while disconnected and a
tick while connected: the counter is within its bound, and the connected tick leaves 0. -/
theorem connectionRetries_bounded_witness :
    Reachable (step (.timer 3) Env.connected
      (step (.timer 5) Env.disconnected
        (step (.logError ["SmartFoxServer lost"]) Env.quiet
          (step .ready Env.quiet Page.initial)))) ∧
    (step (.timer 3) Env.connected
      (step (.timer 5) Env.disconnected
        (step (.logError ["SmartFoxServer lost"]) Env.quiet
          (step .ready Env.quiet Page.initial)))).fixes.connectionRetries ≤ 5 ∧
    (connectionMonitor Env.connected
      (step (.timer 5) Env.disconnected
        (step (.logError ["SmartFoxServer lost"]) Env.quiet
          (step .ready Env.quiet Page.initial)))).page.fixes.connectionRetries = 0 :=
  have hreach : Reachable (step (.timer 3) Env.connected
      (step (.timer 5) Env.disconnected
        (step (.logError ["SmartFoxServer lost"]) Env.quiet
          (step .ready Env.quiet Page.initial)))) :=
    Reachable.step _ _ (Reachable.step _ _ (Reachable.step _ _
      (Reachable.step _ _ Reachable.initial)))
  ⟨hreach,
    le_of_le_of_eq (connectionRetries_bounded.1 _ hreach).2.1
      (connectionRetries_bounded.1 _ hreach).2.2,
    connectionRetries_bounded.2.2.2.1 Env.connected _ _ rfl rfl rfl⟩

/-! ## C11: when the counter is reset -/

theorem requestAnimationFrame_defer (callback : Callback) (env : Env) (p : Page) (k : Nat)
    (last : Time) (hraf : p.requestAnimationFrame = .guard k last .native)
    (hfast : env.now - last < 1) (hk : 100 ≤ k) :
    requestAnimationFrame callback env p
      = { p with
          requestAnimationFrame := .guard (k + 1) last .native
          fixes := { p.fixes with
            performanceMonitor := { p.fixes.performanceMonitor with recursionDetected := true } }
          timers := p.timers ++
            [{ handle := p.nextHandle, delay := 16, repeating := false,
               task := .frameDelay callback env.now 0 }]
          nextHandle := p.nextHandle + 1 } := by
  have hk2 : k + 1 > 100 := by omega
  simp [requestAnimationFrame, hraf, Raf.request, hfast, hk2, Page.setTimeout, Raf.depth]

theorem afterHundred_guard :
    Page.afterHundred.requestAnimationFrame = .guard 100 Env.quiet.now .native ∧
    Page.afterHundred.trace
      = [Effect.enter Fn.fixPlayerLoopRecursion] ++
        (List.replicate 100 (Callback.client 0, Env.quiet)).map
          (fun r => Effect.originalRAF r.1) := by
  have h := requestAll_rapid (List.replicate 100 (Callback.client 0, Env.quiet)) 0
    Env.quiet.now (fixPlayerLoopRecursion Env.quiet Page.initial) rfl
    (by simp) (rapid_replicate _ _ _ _ (by simp))
  rw [lastTime_replicate] at h
  unfold Page.afterHundred
  rw [h]
  exact ⟨by simp, rfl⟩

/-- C11 as stated fails on the page with the counter at 100: the request that pushes the
counter to 101 is deferred, but the counter is 101 and not 0 when the wrapper returns, and
the request that follows at once does not start from 0: it raises the counter to 102 and
is deferred too, without reaching the original primitive. -/
theorem counter_survives_deferring_request :
    Page.afterHundred.requestAnimationFrame.frameCount = 100 ∧
    (requestAnimationFrame (Callback.client 1) Env.quiet
      Page.afterHundred).requestAnimationFrame.frameCount = 101 ∧
    (requestAnimationFrame (Callback.client 1) Env.quiet
      Page.afterHundred).requestAnimationFrame.frameCount ≠ 0 ∧
    (requestAnimationFrame (Callback.client 1) Env.quiet Page.afterHundred).trace
      = Page.afterHundred.trace ∧
    (requestAnimationFrame (Callback.client 2) Env.quiet
      (requestAnimationFrame (Callback.client 1) Env.quiet
        Page.afterHundred)).requestAnimationFrame.frameCount = 102 ∧
    (requestAnimationFrame (Callback.client 2) Env.quiet
      (requestAnimationFrame (Callback.client 1) Env.quiet Page.afterHundred)).trace
      = Page.afterHundred.trace := by
  have h₀ := afterHundred_guard.1
  have h₁ := requestAnimationFrame_defer (Callback.client 1) Env.quiet Page.afterHundred 100
    Env.quiet.now h₀ (by simp) (Nat.le_refl _)
  have h₂ := requestAnimationFrame_defer (Callback.client 2) Env.quiet
    (requestAnimationFrame (Callback.client 1) Env.quiet Page.afterHundred) 101
    Env.quiet.now (by rw [h₁]) (by simp) (by omega)
  refine ⟨by rw [h₀]; rfl, by rw [h₁]; rfl, by rw [h₁]; simp [Raf.frameCount], by rw [h₁], ?_, ?_⟩
  · rw [h₂]; rfl
  · rw [h₂, h₁]

/-- C11, amended: when a request to the wrapped `requestAnimationFrame` pushes the
consecutive counter above 100, handling that request sets
`UnityFixes.performanceMonitor.recursionDetected` to true and arms the 16 ms timer without
calling the original primitive, and leaves the counter above 100 and `lastFrameTime` as it
was. The counter is reset to 0, and `lastFrameTime` set to the current time, by the timer's
callback when it fires, just before the deferred callback is invoked. A request that
follows before the timer fires, less than 1 ms after `lastFrameTime`, is deferred too; a
request that follows the timer's callback within 1 ms starts counting from 0: it is passed
to the original primitive and leaves the counter at 1. -/
theorem counter_reset_by_timer (callback : Callback) (env : Env) (p : Page) (k : Nat)
    (last : Time) (hraf : p.requestAnimationFrame = .guard k last .native)
    (hfast : env.now - last < 1) (hk : 100 ≤ k) :
    (requestAnimationFrame callback env p).fixes.performanceMonitor.recursionDetected = true ∧
    (requestAnimationFrame callback env p).trace = p.trace ∧
    (requestAnimationFrame callback env p).requestAnimationFrame = .guard (k + 1) last .native ∧
    (requestAnimationFrame callback env p).timers
      = p.timers ++
        [{ handle := p.nextHandle, delay := 16, repeating := false,
           task := .frameDelay callback env.now 0 }] ∧
    (∀ (next : Callback) (env₁ : Env), env₁.now - last < 1 →
      (requestAnimationFrame next env₁
          (requestAnimationFrame callback env p)).requestAnimationFrame
        = .guard (k + 2) last .native ∧
      (requestAnimationFrame next env₁ (requestAnimationFrame callback env p)).trace
        = p.trace) ∧
    (∀ env₁ : Env,
      (fire { handle := p.nextHandle, delay := 16, repeating := false,
              task := .frameDelay callback env.now 0 } env₁
          (requestAnimationFrame callback env p)).requestAnimationFrame
        = .guard 0 env₁.now .native ∧
      (fire { handle := p.nextHandle, delay := 16, repeating := false,
              task := .frameDelay callback env.now 0 } env₁
          (requestAnimationFrame callback env p)).trace
        = p.trace ++ [.callback callback (env.now + 16)]) ∧
    (∀ (next : Callback) (env₁ env₂ : Env), env₂.now - env₁.now < 1 →
      (requestAnimationFrame next env₂
          (fire { handle := p.nextHandle, delay := 16, repeating := false,
                  task := .frameDelay callback env.now 0 } env₁
            (requestAnimationFrame callback env p))).requestAnimationFrame
        = .guard 1 env₂.now .native ∧
      (requestAnimationFrame next env₂
          (fire { handle := p.nextHandle, delay := 16, repeating := false,
                  task := .frameDelay callback env.now 0 } env₁
            (requestAnimationFrame callback env p))).trace
        = p.trace ++ [.callback callback (env.now + 16), .originalRAF next]) := by
  have hdefer := requestAnimationFrame_defer callback env p k last hraf hfast hk
  have hfire : ∀ env₁ : Env,
      fire { handle := p.nextHandle, delay := 16, repeating := false,
             task := .frameDelay callback env.now 0 } env₁
          (requestAnimationFrame callback env p)
        = { (requestAnimationFrame callback env p).clearInterval p.nextHandle with
            requestAnimationFrame := .guard 0 env₁.now .native
            trace := p.trace ++ [.callback callback (env.now + 16)] } := by
    intro env₁
    rw [hdefer]
    simp [fire, runTask, frameDelay, Completion.settle, Page.clearInterval, Page.record,
      Raf.resume, Raf.depth]
  refine ⟨by rw [hdefer], by rw [hdefer], by rw [hdefer], by rw [hdefer], ?_, ?_, ?_⟩
  · intro next env₁ h₁
    have h := requestAnimationFrame_defer next env₁ (requestAnimationFrame callback env p)
      (k + 1) last (by rw [hdefer]) h₁ (by omega)
    rw [h]
    exact ⟨rfl, by rw [hdefer]⟩
  · intro env₁
    rw [hfire]
    exact ⟨rfl, rfl⟩
  · intro next env₁ env₂ h₂
    have h := requestAnimationFrame_pass next env₂
      (fire { handle := p.nextHandle, delay := 16, repeating := false,
              task := .frameDelay callback env.now 0 } env₁
        (requestAnimationFrame callback env p)) 0 env₁.now (by rw [hfire]) h₂ (by omega)
    rw [h]
    refine ⟨rfl, ?_⟩
    rw [hfire]
    simp

/-- C11, amended, on the page with the counter at 100: the request that pushes it to 101
leaves 101 behind, and the timer's callback resets it. -/
theorem counter_reset_by_timer_witness :
    Page.afterHundred.requestAnimationFrame = .guard 100 Env.quiet.now .native ∧
    Env.quiet.now - Env.quiet.now < 1 ∧
    (requestAnimationFrame (Callback.client 1) Env.quiet
      Page.afterHundred).requestAnimationFrame = .guard (100 + 1) Env.quiet.now .native ∧
    (fire { handle := Page.afterHundred.nextHandle, delay := 16, repeating := false,
            task := .frameDelay (Callback.client 1) Env.quiet.now 0 } Env.quiet
        (requestAnimationFrame (Callback.client 1) Env.quiet
          Page.afterHundred)).requestAnimationFrame
      = .guard 0 Env.quiet.now .native :=
  ⟨afterHundred_guard.1, by simp,
    (counter_reset_by_timer (Callback.client 1) Env.quiet Page.afterHundred 100 Env.quiet.now
      afterHundred_guard.1 (by simp) (Nat.le_refl _)).2.2.1,
    ((counter_reset_by_timer (Callback.client 1) Env.quiet Page.afterHundred 100 Env.quiet.now
      afterHundred_guard.1 (by simp) (Nat.le_refl _)).2.2.2.2.2.1 Env.quiet).1⟩

/-! ## Events that are foreign to the frame guard -/

theorem passedOn_append (xs ys : List Effect) :
    passedOn (xs ++ ys) = passedOn xs ++ passedOn ys := by
  induction xs with
  | nil => rfl
  | cons e rest ih => cases e <;> simp [passedOn, ih]

theorem quiet_rfl (p : Page) : Quiet p p := ⟨rfl, rfl, rfl⟩

theorem quiet_trans {p q r : Page} (h₁ : Quiet p q) (h₂ : Quiet q r) : Quiet p r :=
  ⟨h₂.frames.trans h₁.frames, h₂.passed.trans h₁.passed, h₂.fixed.trans h₁.fixed⟩

theorem quiet_record (p : Page) (e : Effect) (he : passedOn [e] = []) :
    Quiet p (p.record e) :=
  ⟨rfl, by simp [Page.record, passedOn_append, he], rfl⟩

theorem quiet_clearInterval (p : Page) (handle : Nat) : Quiet p (p.clearInterval handle) :=
  ⟨rfl, rfl, rfl⟩

theorem quiet_fixPlayerLoopRecursion (env : Env) (p : Page)
    (h : p.fixes.playerLoopFixed = true) : Quiet p (fixPlayerLoopRecursion env p) := by
  rw [fixPlayerLoopRecursion_of_fixed env p h]
  exact quiet_record p _ rfl

theorem quiet_createGameManagerFallback (env : Env) (p : Page) :
    Quiet p (createGameManagerFallback env p) :=
  ⟨rfl, by rw [createGameManagerFallback_trace]; simp [passedOn_append, passedOn], rfl⟩

theorem quiet_fixGameManagerInitialization (p : Page) :
    Quiet p (fixGameManagerInitialization p) := by
  refine ⟨?_, ?_, ?_⟩
  · unfold fixGameManagerInitialization; split <;> rfl
  · rw [fixGameManagerInitialization_trace]; simp [passedOn_append, passedOn]
  · unfold fixGameManagerInitialization; split <;> rfl

theorem quiet_fixSmartFoxConnection (p : Page) : Quiet p (fixSmartFoxConnection p) :=
  ⟨rfl, by rw [fixSmartFoxConnection_trace]; simp [passedOn_append, passedOn], rfl⟩

theorem quiet_showConnectionError (p : Page) : Quiet p (showConnectionError p) :=
  ⟨rfl, by simp [showConnectionError, passedOn_append, passedOn], rfl⟩

theorem quiet_call (args : List String) (env : Env) (logger : ErrorLogger) :
    ∀ p : Page, p.fixes.playerLoopFixed = true → Quiet p (logger.call args env p) := by
  induction logger with
  | native => intro p _; exact quiet_record p _ rfl
  | recovery orig ih =>
    intro p h
    simp only [ErrorLogger.call]
    split
    · exact quiet_fixPlayerLoopRecursion env p h
    · split
      · exact quiet_fixGameManagerInitialization p
      · split
        · exact quiet_fixSmartFoxConnection p
        · exact ih p h

theorem quiet_consoleError (args : List String) (env : Env) (p : Page)
    (h : p.fixes.playerLoopFixed = true) : Quiet p (consoleError args env p) :=
  quiet_call args env p.consoleError p h

theorem quiet_checkGameManager (handle : Nat) (env : Env) (p : Page) :
    Quiet p (checkGameManager handle env p).page := by
  unfold checkGameManager
  split
  · exact quiet_rfl p
  · split
    · exact ⟨rfl, by simp [Page.clearInterval, Page.record, passedOn_append, passedOn], rfl⟩
    · exact quiet_trans (quiet_record p (.sendMessage "GameManager" "Initialize") rfl)
        (quiet_trans (quiet_createGameManagerFallback env _) (quiet_clearInterval _ handle))

theorem quiet_gameManagerTimeout (interval : Nat) (env : Env) (p : Page)
    (h : p.fixes.playerLoopFixed = true) : Quiet p (gameManagerTimeout interval env p).page := by
  unfold gameManagerTimeout
  split
  · exact quiet_rfl p
  · exact quiet_trans (quiet_clearInterval p interval)
      (quiet_trans (quiet_consoleError _ env _ h) (quiet_createGameManagerFallback env _))

theorem quiet_connectionMonitor (env : Env) (p : Page) (h : p.fixes.playerLoopFixed = true) :
    Quiet p (connectionMonitor env p).page := by
  have h₁ : Quiet p (p.record .isConnected) := quiet_record p _ rfl
  have h₂ : Quiet p ((p.record .isConnected).record .isConnected) :=
    quiet_trans h₁ (quiet_record _ _ rfl)
  have h₃ : Quiet p ((p.record .isConnected).record (.connect "gameserver.dlgame.online" 8443)) :=
    quiet_trans h₁ (quiet_record _ _ rfl)
  unfold connectionMonitor
  split
  · exact quiet_rfl p
  · split
    · exact h₁
    · split
      · split
        · exact ⟨h₃.frames, h₃.passed, h₃.fixed⟩
        · exact quiet_trans h₃ (quiet_consoleError _ env _ (h₃.fixed.trans h))
      · split
        · exact h₂
        · split
          · exact ⟨h₂.frames, h₂.passed, h₂.fixed⟩
          · exact h₂

theorem quiet_connectionCleanup (interval : Nat) (env : Env) (p : Page)
    (h : p.fixes.playerLoopFixed = true) : Quiet p (connectionCleanup interval env p).page := by
  unfold connectionCleanup
  split
  · exact quiet_trans (quiet_clearInterval p interval)
      (quiet_trans (quiet_consoleError _ env _ h) (quiet_showConnectionError _))
  · exact quiet_clearInterval p interval

theorem quiet_settle (p : Page) (c : Completion) (h : Quiet p c.page) : Quiet p c.settle := by
  unfold Completion.settle
  split
  · exact h
  · exact quiet_trans h (quiet_record _ _ rfl)

theorem quiet_runTask (handle : Nat) (env : Env) (p : Page) (task : TimerTask)
    (h : p.fixes.playerLoopFixed = true) (htask : task.isFrameDelay = false) :
    Quiet p (runTask handle env p task).page := by
  cases task with
  | checkGameManager => exact quiet_checkGameManager handle env p
  | gameManagerTimeout interval => exact quiet_gameManagerTimeout interval env p h
  | connectionMonitor => exact quiet_connectionMonitor env p h
  | connectionCleanup interval => exact quiet_connectionCleanup interval env p h
  | frameDelay callback currentTime level => cases htask

theorem quiet_fire (t : Timer) (env : Env) (p : Page) (h : p.fixes.playerLoopFixed = true)
    (htask : t.task.isFrameDelay = false) : Quiet p (fire t env p) := by
  unfold fire
  split
  · exact quiet_settle p _ (quiet_runTask _ env p _ h htask)
  · exact quiet_settle p _
      (quiet_trans (quiet_clearInterval p t.handle) (quiet_runTask _ env _ _ h htask))

theorem quiet_step (ev : Event) (env : Env) (p : Page) (h : p.fixes.playerLoopFixed = true)
    (hev : Event.foreign p ev = true) : Quiet p (step ev env p) := by
  cases ev with
  | ready =>
    have hinit : p.fixes.isInitialized = true := hev
    simp only [step, initializeFixes, hinit, if_true]
    exact quiet_rfl p
  | requestFrame callback => cases hev
  | logError args => exact quiet_consoleError args env p h
  | timer handle =>
    simp only [Event.foreign] at hev
    simp only [step]
    split
    · exact quiet_rfl p
    · rename_i t hfind
      rw [hfind] at hev
      exact quiet_fire t env p h (by simpa using hev)

theorem rapidRun_counts (events : List (Event × Env)) :
    ∀ (k : Nat) (last : Time) (p : Page),
      p.requestAnimationFrame = .guard k last .native → p.fixes.playerLoopFixed = true →
      RapidRun p events → k + (requestsOf events).length ≤ 100 →
      (∃ last₁, (run p events).requestAnimationFrame
        = .guard (k + (requestsOf events).length) last₁ .native) ∧
      passedOn (run p events).trace = passedOn p.trace ++ requestsOf events ∧
      (run p events).fixes.playerLoopFixed = true := by
  induction events with
  | nil => intro k last p hraf hfixed _ _; exact ⟨⟨last, by simpa [run, requestsOf, requestEventsOf] using hraf⟩, by simp [run, requestsOf, requestEventsOf], hfixed⟩
  | cons e rest ih =>
    intro k last p hraf hfixed hrapid hlen
    obtain ⟨ev, env⟩ := e
    obtain ⟨hhead, hrest⟩ := hrapid
    cases ev with
    | requestFrame callback =>
      have hlen' : k + 1 + (requestsOf rest).length ≤ 100 := by
        simp only [requestsOf, requestEventsOf, List.map_cons, List.length_cons] at hlen
        simp only [requestsOf]
        omega
      have hfast : env.now - last < 1 := by
        simpa [hraf, Raf.lastFrameTime] using hhead
      have hstep : step (.requestFrame callback) env p
          = { p with
              requestAnimationFrame := .guard (k + 1) env.now .native
              trace := p.trace ++ [.originalRAF callback] } :=
        requestAnimationFrame_pass callback env p k last hraf hfast (by omega)
      have := ih (k + 1) env.now (step (.requestFrame callback) env p) (by rw [hstep])
        (by rw [hstep]; exact hfixed) hrest hlen'
      obtain ⟨⟨last₁, h₁⟩, h₂, h₃⟩ := this
      refine ⟨⟨last₁, ?_⟩, ?_, h₃⟩
      · simp only [run, requestsOf, requestEventsOf, List.map_cons, List.length_cons]
        rw [h₁]
        simp only [requestsOf]
        congr 1
        omega
      · simp only [run, requestsOf, requestEventsOf, List.map_cons]
        rw [h₂, hstep]
        simp [passedOn_append, passedOn, requestsOf]
    | ready =>
      have hq := quiet_step .ready env p hfixed hhead
      obtain ⟨h₁, h₂, h₃⟩ :=
        ih k last _ (hq.frames.trans hraf) (hq.fixed.trans hfixed) hrest hlen
      refine ⟨h₁, ?_, h₃⟩
      show passedOn (run (step .ready env p) rest).trace = passedOn p.trace ++ requestsOf rest
      rw [h₂, hq.passed]
    | logError args =>
      have hq := quiet_step (.logError args) env p hfixed hhead
      obtain ⟨h₁, h₂, h₃⟩ :=
        ih k last _ (hq.frames.trans hraf) (hq.fixed.trans hfixed) hrest hlen
      refine ⟨h₁, ?_, h₃⟩
      show passedOn (run (step (.logError args) env p) rest).trace = passedOn p.trace ++ requestsOf rest
      rw [h₂, hq.passed]
    | timer handle =>
      have hq := quiet_step (.timer handle) env p hfixed hhead
      obtain ⟨h₁, h₂, h₃⟩ :=
        ih k last _ (hq.frames.trans hraf) (hq.fixed.trans hfixed) hrest hlen
      refine ⟨h₁, ?_, h₃⟩
      show passedOn (run (step (.timer handle) env p) rest).trace = passedOn p.trace ++ requestsOf rest
      rw [h₂, hq.passed]

/-! ## C2: 101 rapid requests -/

theorem rapidRun_append (xs ys : List (Event × Env)) :
    ∀ p : Page, RapidRun p (xs ++ ys) ↔ RapidRun p xs ∧ RapidRun (run p xs) ys := by
  induction xs with
  | nil => intro p; simp [RapidRun, run]
  | cons x rest ih =>
    intro p
    obtain ⟨ev, env⟩ := x
    constructor
    · intro h
      exact ⟨⟨h.1, ((ih (step ev env p)).mp h.2).1⟩, ((ih (step ev env p)).mp h.2).2⟩
    · intro h
      exact ⟨h.1.1, (ih (step ev env p)).mpr ⟨h.1.2, h.2⟩⟩

theorem requestAnimationFrame_slow (callback : Callback) (env : Env) (p : Page) (k : Nat)
    (last : Time) (hraf : p.requestAnimationFrame = .guard k last .native)
    (hslow : 1 ≤ env.now - last) :
    requestAnimationFrame callback env p
      = { p with
          requestAnimationFrame := .guard 0 env.now .native
          trace := p.trace ++ [.originalRAF callback] } := by
  have hnot : ¬ (env.now - last < 1) := not_lt.mpr hslow
  simp [requestAnimationFrame, hraf, Raf.request, hnot, Page.record]

theorem run_requests (reqs : List (Callback × Env)) :
    ∀ p : Page, run p (reqs.map requestEvent) = requestAll p reqs := by
  induction reqs with
  | nil => intro p; rfl
  | cons r rest ih =>
    intro p
    obtain ⟨callback, env⟩ := r
    exact ih (requestAnimationFrame callback env p)

theorem rapidRun_of_rapid (reqs : List (Callback × Env)) :
    ∀ (k : Nat) (last : Time) (p : Page),
      p.requestAnimationFrame = .guard k last .native → k + reqs.length ≤ 101 →
      Rapid last reqs → RapidRun p (reqs.map requestEvent) := by
  induction reqs with
  | nil => intro k last p _ _ _; trivial
  | cons r rest ih =>
    intro k last p hraf hlen hrapid
    obtain ⟨callback, env⟩ := r
    obtain ⟨hfast, hrest⟩ := hrapid
    simp only [List.length_cons] at hlen
    refine ⟨by simpa [requestEvent, hraf, Raf.lastFrameTime] using hfast, ?_⟩
    by_cases hk : k + 1 ≤ 100
    · have hstep : step (Event.requestFrame callback) env p
          = { p with
              requestAnimationFrame := .guard (k + 1) env.now .native
              trace := p.trace ++ [.originalRAF callback] } :=
        requestAnimationFrame_pass callback env p k last hraf hfast hk
      exact ih (k + 1) env.now _ (by rw [hstep]) (by omega) hrest
    · have hnil : rest = [] := by
        cases rest with
        | nil => rfl
        | cons x xs => simp only [List.length_cons] at hlen; omega
      subst hnil
      trivial

theorem step_timer_of_find (handle : Nat) (env : Env) (p : Page) (t : Timer)
    (h : p.timers.find? (fun t => t.handle == handle) = some t) :
    step (.timer handle) env p = fire t env p := by
  simp only [step, h]

theorem afterDetection_guard :
    Page.afterDetection.requestAnimationFrame = .guard 101 Env.quiet.now .native ∧
    Page.afterDetection.timers
      = [{ handle := 1, delay := 16, repeating := false,
           task := .frameDelay (Callback.client 1) Env.quiet.now 0 }] := by
  have h₀ := requestAll_rapid (List.replicate 100 (Callback.client 0, Env.quiet)) 0
    Env.quiet.now (fixPlayerLoopRecursion Env.quiet Page.initial) rfl
    (by simp) (rapid_replicate _ _ _ _ (by simp))
  have h₁ := requestAnimationFrame_defer (Callback.client 1) Env.quiet Page.afterHundred 100
    Env.quiet.now afterHundred_guard.1 (by simp) (Nat.le_refl _)
  unfold Page.afterDetection
  rw [h₁]
  refine ⟨rfl, ?_⟩
  unfold Page.afterHundred
  rw [h₀]
  rfl

theorem step_requestFrame (callback : Callback) (env : Env) (p : Page) :
    step (.requestFrame callback) env p = requestAnimationFrame callback env p := rfl

theorem run_cons (p : Page) (ev : Event) (env : Env) (rest : List (Event × Env)) :
    run p ((ev, env) :: rest) = run (step ev env p) rest := rfl

theorem requestAnimationFrame_slow_fields (callback : Callback) (env : Env) (p : Page)
    (k : Nat) (last : Time) (hraf : p.requestAnimationFrame = .guard k last .native)
    (hslow : 1 ≤ env.now - last) :
    (requestAnimationFrame callback env p).requestAnimationFrame = .guard 0 env.now .native ∧
    (requestAnimationFrame callback env p).timers = p.timers := by
  rw [requestAnimationFrame_slow callback env p k last hraf hslow]
  exact ⟨rfl, rfl⟩

theorem requestAnimationFrame_pass_fields (callback : Callback) (env : Env) (p : Page)
    (k : Nat) (last : Time) (hraf : p.requestAnimationFrame = .guard k last .native)
    (hfast : env.now - last < 1) (hk : k + 1 ≤ 100) :
    (requestAnimationFrame callback env p).requestAnimationFrame
      = .guard (k + 1) env.now .native ∧
    (requestAnimationFrame callback env p).timers = p.timers ∧
    (requestAnimationFrame callback env p).trace = p.trace ++ [.originalRAF callback] := by
  rw [requestAnimationFrame_pass callback env p k last hraf hfast hk]
  exact ⟨rfl, rfl, rfl⟩

theorem fire_frameDelay_guard (handle : Nat) (callback : Callback) (currentTime : Time)
    (env : Env) (p : Page) (k : Nat) (last : Time)
    (hraf : p.requestAnimationFrame = .guard k last .native) :
    (fire { handle := handle, delay := 16, repeating := false,
            task := .frameDelay callback currentTime 0 } env p).requestAnimationFrame
      = .guard 0 env.now .native := by
  simp [fire, runTask, frameDelay, Completion.settle, Page.clearInterval, Page.record, hraf,
    Raf.resume, Raf.depth]

theorem requestAll_rapid_guard (reqs : List (Callback × Env)) (k : Nat) (last : Time)
    (p : Page) (hraf : p.requestAnimationFrame = .guard k last .native)
    (hlen : k + reqs.length ≤ 100) (hrapid : Rapid last reqs) :
    (requestAll p reqs).requestAnimationFrame
      = .guard (k + reqs.length) (lastTime last reqs) .native := by
  rw [requestAll_rapid reqs k last p hraf hlen hrapid]

theorem requestEventsOf_requestFrame (callback : Callback) (env : Env)
    (rest : List (Event × Env)) :
    requestEventsOf ((Event.requestFrame callback, env) :: rest)
      = (callback, env) :: requestEventsOf rest := rfl

theorem requestEventsOf_timer (handle : Nat) (env : Env) (rest : List (Event × Env)) :
    requestEventsOf ((Event.timer handle, env) :: rest) = requestEventsOf rest := rfl

theorem requestEventsOf_append (xs ys : List (Event × Env)) :
    requestEventsOf (xs ++ ys) = requestEventsOf xs ++ requestEventsOf ys := by
  induction xs with
  | nil => rfl
  | cons x rest ih =>
    obtain ⟨ev, env⟩ := x
    cases ev <;> simp [requestEventsOf, ih]

theorem requestEventsOf_requests (reqs : List (Callback × Env)) :
    requestEventsOf (reqs.map requestEvent) = reqs := by
  induction reqs with
  | nil => rfl
  | cons r rest ih =>
    obtain ⟨callback, env⟩ := r
    simp only [List.map_cons, requestEvent, requestEventsOf]
    exact congrArg _ ih

theorem replicate_requestEvent (n : Nat) (callback : Callback) (env : Env) :
    List.replicate n (Event.requestFrame callback, env)
      = (List.replicate n (callback, env)).map requestEvent := by
  simp [requestEvent]

theorem afterSlowRequest_guard :
    Page.afterSlowRequest.requestAnimationFrame = .guard 0 (31 / 2) .native ∧
    Page.afterSlowRequest.timers
      = [{ handle := 1, delay := 16, repeating := false,
           task := .frameDelay (Callback.client 1) Env.quiet.now 0 }] := by
  have hslow : (1 : ℚ) ≤ (Env.atTime (31 / 2)).now - Env.quiet.now := by
    show (1 : ℚ) ≤ 31 / 2 - 0
    norm_num
  have h := requestAnimationFrame_slow_fields (Callback.client 0) (Env.atTime (31 / 2))
    Page.afterDetection 101 Env.quiet.now afterDetection_guard.1 hslow
  unfold Page.afterSlowRequest
  exact ⟨h.1, h.2.trans afterDetection_guard.2⟩

theorem resumedEvents_guard :
    (run Page.afterSlowRequest resumedEvents).requestAnimationFrame
      = .guard 99 (161 / 10) .native := by
  have h₁ : (Env.atTime (159 / 10)).now - (31 / 2 : ℚ) < 1 := by
    show (159 / 10 : ℚ) - 31 / 2 < 1
    norm_num
  have hreq := requestAnimationFrame_pass_fields (Callback.client 0) (Env.atTime (159 / 10))
    Page.afterSlowRequest 0 (31 / 2) afterSlowRequest_guard.1 h₁ (by omega)
  have hfind : (requestAnimationFrame (Callback.client 0) (Env.atTime (159 / 10))
      Page.afterSlowRequest).timers.find? (fun t => t.handle == 1)
      = some { handle := 1, delay := 16, repeating := false,
               task := .frameDelay (Callback.client 1) Env.quiet.now 0 } := by
    rw [hreq.2.1, afterSlowRequest_guard.2]
    rfl
  have htimer := fire_frameDelay_guard 1 (Callback.client 1) Env.quiet.now (Env.atTime 16)
    (requestAnimationFrame (Callback.client 0) (Env.atTime (159 / 10)) Page.afterSlowRequest)
    1 (Env.atTime (159 / 10)).now hreq.1
  have h₂ : (Env.atTime (161 / 10)).now - (Env.atTime 16).now < 1 := by
    show (161 / 10 : ℚ) - 16 < 1
    norm_num
  have hall := requestAll_rapid_guard
    (List.replicate 99 (Callback.client 0, Env.atTime (161 / 10))) 0 (Env.atTime 16).now _
    htimer (by simp) (rapid_replicate _ _ _ _ h₂)
  rw [lastTime_replicate] at hall
  unfold resumedEvents
  rw [run_cons, run_cons, step_requestFrame, step_timer_of_find 1 _ _ _ hfind,
    replicate_requestEvent, run_requests, hall]
  rfl

/-- C2 as stated fails on the page where a detection at 0 ms has left its 16 ms timer
pending and a request at 15.5 ms has reset the counter to 0. Of the 101 requests that
follow, each less than 1 ms after the one before (one at 15.9 ms, then 100 at 16.1 ms), the
101st is passed to the original `requestAnimationFrame` and arms no timer: the pending
timer's callback ran at 16 ms and set the counter back to 0 (lines 49-51), so the 101st
request finds it at 99. -/
theorem rapid_requests_restarted_by_timer :
    Page.afterSlowRequest.requestAnimationFrame = .guard 0 (31 / 2) .native ∧
    (requestsOf resumedEvents).length = 100 ∧
    Rapid (31 / 2)
      (requestEventsOf
        (resumedEvents ++
          [(Event.requestFrame (Callback.client 2), Env.atTime (161 / 10))])) ∧
    (run Page.afterSlowRequest resumedEvents).requestAnimationFrame
      = .guard 99 (161 / 10) .native ∧
    (step (.requestFrame (Callback.client 2)) (Env.atTime (161 / 10))
        (run Page.afterSlowRequest resumedEvents)).trace
      = (run Page.afterSlowRequest resumedEvents).trace ++
        [.originalRAF (Callback.client 2)] ∧
    (step (.requestFrame (Callback.client 2)) (Env.atTime (161 / 10))
        (run Page.afterSlowRequest resumedEvents)).timers
      = (run Page.afterSlowRequest resumedEvents).timers := by
  have hlast : (Env.atTime (161 / 10)).now - (161 / 10 : ℚ) < 1 := by
    show (161 / 10 : ℚ) - 161 / 10 < 1
    norm_num
  have hpass := requestAnimationFrame_pass_fields (Callback.client 2) (Env.atTime (161 / 10))
    (run Page.afterSlowRequest resumedEvents) 99 (161 / 10) resumedEvents_guard hlast
    (by omega)
  have hevents : requestEventsOf
      (resumedEvents ++ [(Event.requestFrame (Callback.client 2), Env.atTime (161 / 10))])
      = (Callback.client 0, Env.atTime (159 / 10)) ::
        (List.replicate 99 (Callback.client 0, Env.atTime (161 / 10)) ++
          [(Callback.client 2, Env.atTime (161 / 10))]) := by
    unfold resumedEvents
    rw [requestEventsOf_append, replicate_requestEvent, requestEventsOf_requestFrame,
      requestEventsOf_timer, requestEventsOf_requests]
    rfl
  have hcount : (requestsOf resumedEvents).length = 100 := by
    unfold requestsOf resumedEvents
    rw [replicate_requestEvent, requestEventsOf_requestFrame, requestEventsOf_timer,
      requestEventsOf_requests, List.length_map, List.length_cons, List.length_replicate]
  refine ⟨afterSlowRequest_guard.1, hcount, ?_, resumedEvents_guard, ?_, ?_⟩
  · rw [hevents]
    refine ⟨?_, (rapid_append _ _ _).mpr ⟨rapid_replicate _ _ _ _ ?_, ?_⟩⟩
    · show (159 / 10 : ℚ) - 31 / 2 < 1
      norm_num
    · show (161 / 10 : ℚ) - 159 / 10 < 1
      norm_num
    · rw [lastTime_replicate]
      exact ⟨hlast, trivial⟩
  · rw [step_requestFrame]
    exact hpass.2.2
  · rw [step_requestFrame]
    exact hpass.2.1

/-- C2, amended: take the wrapper of `fixPlayerLoopRecursion` around the browser primitive
with its consecutive counter at 0, and a run of events with 101 frame requests, each
arriving with a delta below 1 ms, between which no deferred callback of the wrapper (the
callback of the 16 ms timer of an earlier detection, which sets the counter back to 0)
runs; logged errors, other timers and `ready` signals after start-up may come between the
requests. The first 100 requests are passed, in order, to the original
`requestAnimationFrame`; the 101st is not passed on but arms a 16 ms one-shot timer, and
when that timer fires the callback is invoked with the time of the 101st request plus 16.
The counter is 0 right after the wrapper is installed and right after any request that
arrives 1 ms or more after the previous one. -/
theorem rapid_requests_deferred (p : Page) (last : Time) (events : List (Event × Env))
    (callback : Callback) (env : Env)
    (hraf : p.requestAnimationFrame = .guard 0 last .native)
    (hfixed : p.fixes.playerLoopFixed = true)
    (hlen : (requestsOf events).length = 100)
    (hrapid : RapidRun p (events ++ [(Event.requestFrame callback, env)])) :
    passedOn (run p events).trace = passedOn p.trace ++ requestsOf events ∧
    (step (.requestFrame callback) env (run p events)).trace = (run p events).trace ∧
    (step (.requestFrame callback) env (run p events)).timers
      = (run p events).timers ++
        [{ handle := (run p events).nextHandle, delay := 16, repeating := false,
           task := .frameDelay callback env.now 0 }] ∧
    (∀ env' : Env,
      (fire { handle := (run p events).nextHandle, delay := 16, repeating := false,
              task := .frameDelay callback env.now 0 } env'
          (step (.requestFrame callback) env (run p events))).trace
        = (run p events).trace ++ [.callback callback (env.now + 16)]) ∧
    (∀ (env₀ : Env) (p₀ : Page), p₀.fixes.playerLoopFixed = false →
      (fixPlayerLoopRecursion env₀ p₀).requestAnimationFrame
        = .guard 0 env₀.now p₀.requestAnimationFrame) ∧
    (∀ (k : Nat) (last₀ : Time) (callback₀ : Callback) (env₀ : Env) (p₀ : Page),
      p₀.requestAnimationFrame = .guard k last₀ .native → 1 ≤ env₀.now - last₀ →
      (requestAnimationFrame callback₀ env₀ p₀).requestAnimationFrame
        = .guard 0 env₀.now .native) := by
  obtain ⟨hfirst, hlast⟩ := (rapidRun_append events _ p).mp hrapid
  obtain ⟨⟨last₁, hcount⟩, hpassed, -⟩ :=
    rapidRun_counts events 0 last p hraf hfixed hfirst (by omega)
  rw [hlen] at hcount
  have hdelta : env.now - last₁ < 1 := by
    have := hlast.1
    simpa [hcount, Raf.lastFrameTime] using this
  have hdefer : step (.requestFrame callback) env (run p events)
      = { run p events with
          requestAnimationFrame := .guard (0 + 100 + 1) last₁ .native
          fixes := { (run p events).fixes with
            performanceMonitor :=
              { (run p events).fixes.performanceMonitor with recursionDetected := true } }
          timers := (run p events).timers ++
            [{ handle := (run p events).nextHandle, delay := 16, repeating := false,
               task := .frameDelay callback env.now 0 }]
          nextHandle := (run p events).nextHandle + 1 } :=
    requestAnimationFrame_defer callback env (run p events) (0 + 100) last₁ hcount hdelta
      (by omega)
  refine ⟨hpassed, by rw [hdefer], by rw [hdefer], ?_, ?_, ?_⟩
  · intro env'
    rw [hdefer]
    simp [fire, runTask, frameDelay, Completion.settle, Page.clearInterval]
  · intro env₀ p₀ h
    simp [fixPlayerLoopRecursion, h, Page.record]
  · intro k last₀ callback₀ env₀ p₀ h hslow
    rw [requestAnimationFrame_slow callback₀ env₀ p₀ k last₀ h hslow]

/-- C2, amended, with a logged error between the install and 101 requests made at the
instant of the install: the 101st request is not passed to the original primitive. -/
theorem rapid_requests_deferred_witness :
    (fixPlayerLoopRecursion Env.quiet Page.initial).requestAnimationFrame
      = .guard 0 Env.quiet.now .native ∧
    RapidRun (fixPlayerLoopRecursion Env.quiet Page.initial)
      (((Event.logError ["Texture load failed"], Env.quiet) ::
          (List.replicate 100 (Callback.client 0, Env.quiet)).map requestEvent) ++
        [(Event.requestFrame (Callback.client 1), Env.quiet)]) ∧
    (step (.requestFrame (Callback.client 1)) Env.quiet
        (run (fixPlayerLoopRecursion Env.quiet Page.initial)
          ((Event.logError ["Texture load failed"], Env.quiet) ::
            (List.replicate 100 (Callback.client 0, Env.quiet)).map requestEvent))).trace
      = (run (fixPlayerLoopRecursion Env.quiet Page.initial)
          ((Event.logError ["Texture load failed"], Env.quiet) ::
            (List.replicate 100 (Callback.client 0, Env.quiet)).map requestEvent)).trace :=
  have hrapid : RapidRun (fixPlayerLoopRecursion Env.quiet Page.initial)
      (((Event.logError ["Texture load failed"], Env.quiet) ::
          (List.replicate 100 (Callback.client 0, Env.quiet)).map requestEvent) ++
        [(Event.requestFrame (Callback.client 1), Env.quiet)]) := by
    refine ⟨rfl, ?_⟩
    have h := rapidRun_of_rapid
      (List.replicate 100 (Callback.client 0, Env.quiet) ++ [(Callback.client 1, Env.quiet)]) 0
      Env.quiet.now
      (step (Event.logError ["Texture load failed"]) Env.quiet
        (fixPlayerLoopRecursion Env.quiet Page.initial)) rfl (by simp)
      ((rapid_append _ _ _).mpr
        ⟨rapid_replicate _ _ _ _ (by simp), by
          rw [lastTime_replicate]; exact ⟨by simp, trivial⟩⟩)
    simpa [requestEvent] using h
  ⟨rfl, hrapid,
    (rapid_requests_deferred (fixPlayerLoopRecursion Env.quiet Page.initial) Env.quiet.now
      ((Event.logError ["Texture load failed"], Env.quiet) ::
        (List.replicate 100 (Callback.client 0, Env.quiet)).map requestEvent)
      (Callback.client 1) Env.quiet rfl rfl (by decide) hrapid).2.1⟩

end UnityWebGLFixes
